import Mathlib

/-!
Shallow embedding of the bulk-import task engine of the pokeapi-fastapi
repository (src/app/crud.py, src/app/routers/admin.py, src/app/services.py).

Machine conventions:
* SQLAlchemy rows become Lean structures; a table becomes a `List` of rows
  (queried by `List.find?`, mutated by mapping over the list — ids/names are
  primary keys / unique columns, so at most one row matches).
* `datetime.utcnow()` timestamps are modelled by an explicit `now : Nat`
  argument.
* Python dict payloads flowing through the HTTP layer are modelled as
  structures or as `List (String × Nat)` association lists (for the task
  `result` JSON column, whose keys matter to the claims).
* Fallible HTTP endpoints return `Except Nat α` where the `Nat` is the HTTP
  status code of a raised `HTTPException`.
-/

/-- Snapshot of the request parameters stored in `AsyncTask.params`
(`task_data` in `load_pokemons_async`, src/app/routers/admin.py). -/
structure TaskParams where
  limit : Nat
  offset : Nat
  batch_size : Nat
  force_update : Bool
deriving Repr, DecidableEq

/-- Row of the `async_tasks` table (`models.AsyncTask`, src/app/models.py).
`result` is the JSONB dict written by `complete_task`, modelled as a
key/value association list. -/
structure AsyncTask where
  id : String
  task_type : String
  status : String
  params : Option TaskParams
  result : Option (List (String × Nat))
  error : Option String
  created_at : Option Nat
  started_at : Option Nat
  completed_at : Option Nat
  progress : Nat
  total_items : Nat
  processed_items : Nat
deriving Repr, DecidableEq

/-- The persisted `async_tasks` table. -/
abbrev TaskStore := List AsyncTask

/-- Embeds `crud.get_task` (src/app/crud.py): first row whose id matches. -/
def get_task (db : TaskStore) (task_id : String) : Option AsyncTask :=
  db.find? (fun t => t.id == task_id)

/-- Helper for the SQLAlchemy pattern "query first row, mutate its fields,
commit": replaces the row(s) whose id matches (id is the primary key, so at
most one row matches). -/
def setTask (db : TaskStore) (task_id : String) (t : AsyncTask) : TaskStore :=
  db.map (fun u => if u.id == task_id then t else u)

/-- Embeds `crud.create_task`: inserts a fresh row with status `pending`;
`progress`, `total_items`, `processed_items` take the column defaults 0;
`result`/`error`/`started_at`/`completed_at` are NULL. -/
def create_task (db : TaskStore) (task_id task_type : String) (params : TaskParams)
    (now : Nat) : AsyncTask × TaskStore :=
  let task : AsyncTask :=
    { id := task_id, task_type := task_type, status := "pending", params := some params
      result := none, error := none, created_at := some now, started_at := none
      completed_at := none, progress := 0, total_items := 0, processed_items := 0 }
  (task, db ++ [task])

/-- Embeds `crud.update_task_progress`: if the row exists, overwrite
`progress`/`processed_items`/`total_items`, and on the first update flip
`pending` to `running` and set `started_at`; if absent, do nothing and
return None. -/
def update_task_progress (db : TaskStore) (task_id : String)
    (progress processed total : Nat) (now : Nat) : Option AsyncTask × TaskStore :=
  match get_task db task_id with
  | none => (none, db)
  | some t =>
    let t1 := { t with progress := progress, processed_items := processed,
                       total_items := total }
    let t2 := if t1.status == "pending"
      then { t1 with status := "running", started_at := some now }
      else t1
    (some t2, setTask db task_id t2)

/-- Embeds `crud.complete_task`: if the row exists, set status `completed`,
store the result dict, set `completed_at` and force `progress` to 100. -/
def complete_task (db : TaskStore) (task_id : String)
    (result : List (String × Nat)) (now : Nat) : Option AsyncTask × TaskStore :=
  match get_task db task_id with
  | none => (none, db)
  | some t =>
    let t1 := { t with status := "completed", result := some result,
                       completed_at := some now, progress := 100 }
    (some t1, setTask db task_id t1)

/-- Embeds `crud.fail_task`: if the row exists, set status `failed`, store
the error message and set `completed_at`. -/
def fail_task (db : TaskStore) (task_id : String) (error : String)
    (now : Nat) : Option AsyncTask × TaskStore :=
  match get_task db task_id with
  | none => (none, db)
  | some t =>
    let t1 := { t with status := "failed", error := some error,
                       completed_at := some now }
    (some t1, setTask db task_id t1)

/-- State touched by the admin router: the persisted task table plus the
in-memory `active_tasks` registry (modelled by the list of registered
task ids). -/
structure AdminState where
  db : TaskStore
  active_tasks : List String
deriving Repr, DecidableEq

/-- Projection of the response data built by `get_task_status`
(src/app/routers/admin.py); timestamp echoes and the derived
`estimated_remaining` string are not modelled. -/
structure StatusData where
  task_id : String
  task_type : String
  status : String
  progress : Nat
  processed : Nat
  total : Nat
  is_active : Bool
deriving Repr, DecidableEq

/-- Embeds the `GET /admin/tasks/(task_id)` handler `get_task_status`:
404 when the row is absent, otherwise a snapshot of the row; the handler
never writes, so the state comes back unchanged. -/
def get_task_status (st : AdminState) (task_id : String) :
    Except Nat StatusData × AdminState :=
  match get_task st.db task_id with
  | none => (Except.error 404, st)
  | some t =>
    (Except.ok { task_id := task_id, task_type := t.task_type, status := t.status,
                 progress := t.progress, processed := t.processed_items,
                 total := t.total_items,
                 is_active := st.active_tasks.contains task_id }, st)

/-- Payload of the response returned by `cancel_task`. -/
structure CancelData where
  task_id : String
  status : String
deriving Repr, DecidableEq

/-- Embeds the `POST /admin/tasks/(task_id)/cancel` handler `cancel_task`:
drop the id from the in-memory registry if present, and if the row exists —
whatever its current status — overwrite status to `cancelled` and stamp
`completed_at`; always answers with a success payload, never an HTTP
error. -/
def cancel_task (st : AdminState) (task_id : String) (now : Nat) :
    Except Nat CancelData × AdminState :=
  let active := if st.active_tasks.contains task_id
    then st.active_tasks.erase task_id else st.active_tasks
  let db :=
    match get_task st.db task_id with
    | none => st.db
    | some t => setTask st.db task_id { t with status := "cancelled", completed_at := some now }
  (Except.ok { task_id := task_id, status := "cancelled" }, { db := db, active_tasks := active })

/-- One entry of the `evolutions` list built by
`AsyncPokeAPIService.extract_evolutions` (src/app/services.py). `min_level`
models `evolution_details[0].get('min_level')` and `trigger` models
`evolution_details[0].get('trigger', dict()).get('name')`. -/
structure Evolution where
  name : String
  url : String
  min_level : Option Int
  trigger : Option String
deriving Repr, DecidableEq

/-- The `base_stats` dict produced by `extract_base_stats`. -/
structure BaseStats where
  hp : Int
  attack : Int
  defense : Int
  special_attack : Int
  special_defense : Int
  speed : Int
  total_stats : Int
deriving Repr, DecidableEq

/-- One entry of the `abilities` list produced by `extract_abilities`. -/
structure AbilityData where
  name : String
  is_hidden : Bool
deriving Repr, DecidableEq

/-- The normalized record produced by `process_pokemon` and consumed by
`_save_pokemon`; `types` holds the type names, `locations` the
location-area names. Numeric payloads (the unit-scaled height/weight and
the stat values) are modelled as integers — their values flow through the
upsert unchanged and no claim computes with them. -/
structure ProcessedPokemon where
  name : String
  height : Int
  weight : Int
  base_experience : Option Int
  is_default : Bool
  species : String
  capture_rate : Option Int
  base_happiness : Option Int
  growth_rate : String
  base_stats : BaseStats
  abilities : List AbilityData
  types : List String
  evolutions : List Evolution
  locations : List String
deriving Repr, DecidableEq

/-- Row of the `pokemons` table as written by `_save_pokemon`
(`pokemon_dict` in src/app/services.py); the JSON-serialized
`evolutions`/`locations` columns are modelled by the structured values
themselves (serialization is injective). -/
structure PokemonRow where
  name : String
  height : Int
  weight : Int
  base_experience : Option Int
  is_default : Bool
  species : String
  capture_rate : Option Int
  base_happiness : Option Int
  growth_rate : String
  hp : Int
  attack : Int
  defense : Int
  special_attack : Int
  special_defense : Int
  speed : Int
  total_stats : Int
  evolutions : List Evolution
  locations : List String
deriving Repr, DecidableEq

/-- Row of the `abilities` table (`models.Ability`). -/
structure AbilityRow where
  name : String
  is_hidden : Bool
deriving Repr, DecidableEq

/-- The relational store touched by the upsert engine: the `pokemons`,
`abilities` and `types` tables plus the two many-to-many association
tables, keyed here by the unique `name` columns of both sides. -/
structure Db where
  pokemons : List PokemonRow
  abilities : List AbilityRow
  types : List String
  pokemon_abilities : List (String × String)
  pokemon_types : List (String × String)
deriving Repr, DecidableEq

/-- The `pokemon_dict` built inside `_save_pokemon` from the processed
data. -/
def buildRow (d : ProcessedPokemon) : PokemonRow :=
  { name := d.name, height := d.height, weight := d.weight
    base_experience := d.base_experience, is_default := d.is_default
    species := d.species, capture_rate := d.capture_rate
    base_happiness := d.base_happiness, growth_rate := d.growth_rate
    hp := d.base_stats.hp, attack := d.base_stats.attack
    defense := d.base_stats.defense, special_attack := d.base_stats.special_attack
    special_defense := d.base_stats.special_defense, speed := d.base_stats.speed
    total_stats := d.base_stats.total_stats
    evolutions := d.evolutions, locations := d.locations }

/-- One iteration of the abilities loop in
`BulkPokemonLoader._add_relationships`: create the ability row by name if
missing, then link it to the pokemon unless already linked. -/
def addAbility (db : Db) (pname : String) (a : AbilityData) : Db :=
  let db :=
    if (db.abilities.find? (fun r => r.name == a.name)).isSome then db
    else { db with abilities := db.abilities ++ [{ name := a.name, is_hidden := a.is_hidden }] }
  if db.pokemon_abilities.contains (pname, a.name) then db
  else { db with pokemon_abilities := db.pokemon_abilities ++ [(pname, a.name)] }

/-- One iteration of the types loop in `_add_relationships`: create the
type row by name if missing, then link it unless already linked. -/
def addType (db : Db) (pname : String) (tname : String) : Db :=
  let db :=
    if db.types.contains tname then db
    else { db with types := db.types ++ [tname] }
  if db.pokemon_types.contains (pname, tname) then db
  else { db with pokemon_types := db.pokemon_types ++ [(pname, tname)] }

/-- Embeds `BulkPokemonLoader._add_relationships`: the abilities loop
followed by the types loop. -/
def add_relationships (db : Db) (pname : String) (d : ProcessedPokemon) : Db :=
  d.types.foldl (fun db t => addType db pname t)
    (d.abilities.foldl (fun db a => addAbility db pname a) db)

/-- Embeds `BulkPokemonLoader._update_relationships`: clear the pokemon's
association rows (`pokemon.abilities.clear()` / `pokemon.types.clear()`),
then re-add them. -/
def update_relationships (db : Db) (pname : String) (d : ProcessedPokemon) : Db :=
  let db := { db with
    pokemon_abilities := db.pokemon_abilities.filter (fun p => p.1 != pname)
    pokemon_types := db.pokemon_types.filter (fun p => p.1 != pname) }
  add_relationships db pname d

/-- Embeds `BulkPokemonLoader._save_pokemon`: look up the record by exact
name; found and not forcing → `skipped` with no mutation; found and
forcing → overwrite the row and re-link associations → `updated`;
otherwise insert the new row and link associations → `loaded`. (The
`except` branch returning `error` models only persistence failures, which
the pure relational model cannot produce.) -/
def save_pokemon (db : Db) (d : ProcessedPokemon) (force_update : Bool) : String × Db :=
  let existing := db.pokemons.find? (fun p => p.name == d.name)
  if existing.isSome && !force_update then ("skipped", db)
  else
    let row := buildRow d
    if existing.isSome && force_update then
      let db := { db with pokemons := db.pokemons.map (fun p => if p.name == d.name then row else p) }
      ("updated", update_relationships db d.name d)
    else
      let db := { db with pokemons := db.pokemons ++ [row] }
      ("loaded", add_relationships db d.name d)

/-- One element of the `results` array returned by the listing call
(`fetch_pokemon_list`). -/
structure ListItem where
  name : String
  url : String
deriving Repr, DecidableEq

/-- The dict returned by `BulkPokemonLoader.load_pokemons`. `details`
records (name, status) per persisted item; the wall-clock timestamp of
each detail entry is not modelled. `next_offset` is `none` both for the
JSON null and for the return paths that omit the key. -/
structure BatchResult where
  total_requested : Nat
  loaded : Nat
  updated : Nat
  skipped : Nat
  errors : Nat
  next_offset : Option Nat
  details : List (String × String)
deriving Repr, DecidableEq

/-- Oracles for the external HTTP collaborator (the narrow Source Client
interface): `list_page limit offset` is the outcome of
`fetch_pokemon_list` — `Except.ok` carries the parsed `results` (a listing
call that cannot reach the source is caught inside `fetch_data` and comes
back as `Except.ok []`, since the empty dict has no `results` key), while
`Except.error` models an exception escaping the body of `load_pokemons`
(for instance a listing entry without a `url` key). `fetch_detail` is the
per-url `fetch_data` outcome (`none` for a failed or non-200 fetch, whose
empty dict `fetch_pokemon_details` filters out of `valid_results`);
`process_p` is the outcome of `process_pokemon` (`none` for the
caught-exception empty dict). Raw detail documents are opaque strings. -/
structure Env where
  list_page : Nat → Nat → Except Unit (List ListItem)
  fetch_detail : String → Option String
  process_p : String → Option ProcessedPokemon

/-- The fixed sub-batch size set in `BulkPokemonLoader.__init__`. -/
def loader_batch_size : Nat := 50

/-- Mutable counters of the `load_pokemons` loop. -/
structure LoadCounts where
  loaded : Nat
  updated : Nat
  skipped : Nat
  errors : Nat
  details : List (String × String)
deriving Repr, DecidableEq

/-- Body of the per-item loop in `load_pokemons`: transform the fetched
document (a failed `process_pokemon` counts an error and skips the item),
then persist it via `_save_pokemon`, bump the counter matching the
returned status string (anything unrecognized counts as an error) and
append a detail entry. -/
def processOne (env : Env) (force_update : Bool) (acc : LoadCounts × Db) (pd : String) :
    LoadCounts × Db :=
  let c := acc.1
  match env.process_p pd with
  | none => ({ c with errors := c.errors + 1 }, acc.2)
  | some proc =>
    let r := save_pokemon acc.2 proc force_update
    let c1 :=
      if r.1 == "loaded" then { c with loaded := c.loaded + 1 }
      else if r.1 == "updated" then { c with updated := c.updated + 1 }
      else if r.1 == "skipped" then { c with skipped := c.skipped + 1 }
      else { c with errors := c.errors + 1 }
    ({ c1 with details := c1.details ++ [(proc.name, r.1)] }, r.2)

/-- Consecutive slices `urls[i:i+n]` for `i` in `range(0, len(urls), n)`,
the sub-batch loop of `load_pokemons`; the loader only ever uses the fixed
slice size 50 (a step of 0 would raise in Python and is never used). -/
def chunkList (n : Nat) (xs : List α) : List (List α) :=
  (List.range ((xs.length + n - 1) / n)).map (fun i => (xs.drop (i * n)).take n)

/-- One sub-batch of `load_pokemons`: the bounded-concurrency
`fetch_pokemon_details` keeps only the successfully fetched documents, in
listing order, and each is transformed and upserted sequentially. -/
def loadStep (env : Env) (force_update : Bool) (acc : LoadCounts × Db)
    (batch_urls : List String) : LoadCounts × Db :=
  (batch_urls.filterMap env.fetch_detail).foldl (processOne env force_update) acc

/-- Embeds `BulkPokemonLoader.load_pokemons` for one listing page: an
escaping exception yields the all-error dict, an empty listing the
all-zero dict; otherwise the page's urls are processed in sub-batches of
50 and the counters accumulated; `next_offset` is `offset + limit` exactly
when the listing returned `limit` items. -/
def load_pokemons (env : Env) (db : Db) (limit offset : Nat) (force_update : Bool) :
    BatchResult × Db :=
  match env.list_page limit offset with
  | .error _ =>
    ({ total_requested := limit, loaded := 0, updated := 0, skipped := 0,
       errors := limit, next_offset := none, details := [] }, db)
  | .ok pokemon_list =>
    if pokemon_list.isEmpty then
      ({ total_requested := 0, loaded := 0, updated := 0, skipped := 0,
         errors := 0, next_offset := none, details := [] }, db)
    else
      let total_requested := pokemon_list.length
      let pokemon_urls := pokemon_list.map (fun p => p.url)
      let r := (chunkList loader_batch_size pokemon_urls).foldl (loadStep env force_update)
        ({ loaded := 0, updated := 0, skipped := 0, errors := 0, details := [] }, db)
      ({ total_requested := total_requested, loaded := r.1.loaded, updated := r.1.updated,
         skipped := r.1.skipped, errors := r.1.errors,
         next_offset := if total_requested == limit then some (offset + limit) else none,
         details := r.1.details }, r.2)

/-- Sum of the four outcome counters. -/
def countsSum (c : LoadCounts) : Nat :=
  c.loaded + c.updated + c.skipped + c.errors

/-- Environment where the single listed item's detail fetch fails. -/
def c1Env : Env :=
  { list_page := fun _ _ => Except.ok [{ name := "bulbasaur", url := "u1" }]
    fetch_detail := fun _ => none
    process_p := fun _ => none }

/-- Environment modelling an unreachable source: every fetch fails, so the
listing comes back empty. -/
def c3Env : Env :=
  { list_page := fun _ _ => Except.ok []
    fetch_detail := fun _ => none
    process_p := fun _ => none }

/-- Fuel-based floor of the base-2 logarithm (structurally recursive so
that it evaluates inside the kernel; the fuel is the number itself). -/
def natLog2Aux : Nat → Nat → Nat
  | 0, _ => 0
  | fuel + 1, n => if 2 ≤ n then natLog2Aux fuel (n / 2) + 1 else 0

/-- Floor of log2 n (0 for n = 0 and n = 1). -/
def natLog2 (n : Nat) : Nat := natLog2Aux n n

/-- Round-to-nearest, ties to even, of the rational a/b to an integer —
the rounding mode of IEEE-754 binary arithmetic. -/
def rne (a b : Nat) : Nat :=
  if b < 2 * (a % b) then a / b + 1
  else if 2 * (a % b) < b then a / b
  else a / b + (a / b) % 2

/-- The scaling pair (u, v) with n * 2^u / (d * 2^v) in [2^52, 2^53), for
a positive rational n/d: the exponent bookkeeping of binary64
normalization without signed integers. -/
def scaleInto (n d : Nat) : Nat × Nat :=
  if d ≤ n then
    let z := natLog2 (n / d)
    if z ≤ 52 then (52 - z, 0) else (0, z - 52)
  else
    let t := natLog2 (d / n)
    if n * 2 ^ t = d then (52 + t, 0) else (52 + t + 1, 0)

/-- IEEE-754 binary64 round-to-nearest-even of the positive rational n/d,
as an exact numerator/denominator pair: the 53-bit mantissa is the
`rne` rounding of the scaled ratio. The exponent is unbounded, so the
model is bit-exact for binary64 away from the overflow and subnormal
ranges; every ratio the orchestrator rounds lies in [1/10000, 100]
(the admin endpoint rejects limits above 10 000), far inside the normal
range. -/
def roundF (n d : Nat) : Nat × Nat :=
  let s := scaleInto n d
  let m := rne (n * 2 ^ s.1) (d * 2 ^ s.2)
  (m * 2 ^ s.2, 2 ^ s.1)

/-- CPython\'s `int(((batch_num + 1) / total_batches) * 100)` evaluated in
binary64: correctly round the quotient k/T, multiply by the exact float
100.0 and correctly round again, then truncate (the value is
non-negative, so `int` is the floor). Checked bit-exactly against
CPython on exhaustive sweeps (see `pyProgress_cpython_samples`). -/
def pyProgress (k T : Nat) : Nat :=
  let x := roundF k T
  let y := roundF (100 * x.1) x.2
  y.1 / y.2

/-- Number of batches computed in `process_pokemon_load`
(src/app/routers/admin.py): `(limit + batch_size - 1) // batch_size`,
meaningful for `batch_size > 0` only — at `batch_size = 0` the source
raises ZeroDivisionError before the loop, which `process_pokemon_load`
models by its fail branch (this helper is never consulted there). -/
def totalBatches (limit batch_size : Nat) : Nat :=
  (limit + batch_size - 1) / batch_size

/-- Combined persistent state threaded through the orchestrator: the task
table and the relational pokemon store (one session serves both in the
source). -/
structure OrchState where
  tasks : TaskStore
  pokedb : Db
deriving Repr, DecidableEq

/-- Loop body of `process_pokemon_load` for 0-based batch number
`batch_num`, threading (state, total_loaded, total_errors): run one
`load_pokemons` page of size `min(batch_size, limit - batch_num *
batch_size)` at `offset + batch_num * batch_size`, add the page's
loaded/errors into the totals, then persist
`progress = int(((batch_num + 1) / total_batches) * 100)` — evaluated
bit-exactly in binary64 by `pyProgress` — and
`processed = min((batch_num + 1) * batch_size, limit)`. -/
def orchBatchStep (env : Env) (task_id : String) (limit offset batch_size : Nat)
    (force_update : Bool) (now : Nat) (acc : OrchState × Nat × Nat) (batch_num : Nat) :
    OrchState × Nat × Nat :=
  let st := acc.1
  let batch_offset := offset + batch_num * batch_size
  let batch_limit := min batch_size (limit - batch_num * batch_size)
  let r := load_pokemons env st.pokedb batch_limit batch_offset force_update
  let total_loaded := acc.2.1 + r.1.loaded
  let total_errors := acc.2.2 + r.1.errors
  let progress := pyProgress (batch_num + 1) (totalBatches limit batch_size)
  let processed := (batch_num + 1) * batch_size
  ({ tasks := (update_task_progress st.tasks task_id progress (min processed limit) limit now).2
     pokedb := r.2 }, total_loaded, total_errors)

/-- The state of the `process_pokemon_load` run after its initial progress
write (progress 0, processed 0, total `limit`) and the first `k`
iterations of the batch loop, together with the running
total_loaded/total_errors accumulators. -/
def orchAfterBatches (env : Env) (task_id : String) (limit offset batch_size : Nat)
    (force_update : Bool) (now : Nat) (st : OrchState) (k : Nat) : OrchState × Nat × Nat :=
  (List.range k).foldl (orchBatchStep env task_id limit offset batch_size force_update now)
    ({ tasks := (update_task_progress st.tasks task_id 0 0 limit now).2
       pokedb := st.pokedb }, 0, 0)

/-- Embeds `process_pokemon_load`: the initial progress write, then —
with a positive batch size — the sequential batch loop followed by
`complete_task` with the aggregate dict holding exactly the keys
total_requested / loaded / errors / completed_at. With `batch_size = 0`
(reachable: the endpoint validates only `limit`) the batch-count
division `(limit + batch_size - 1) // batch_size` raises
ZeroDivisionError right after the initial write; the `except` branch
catches it and `fail_task` records str(e). -/
def process_pokemon_load (env : Env) (task_id : String) (limit offset batch_size : Nat)
    (force_update : Bool) (now : Nat) (st : OrchState) : OrchState :=
  if batch_size = 0 then
    { tasks := (fail_task (update_task_progress st.tasks task_id 0 0 limit now).2
        task_id "integer division or modulo by zero" now).2
      pokedb := st.pokedb }
  else
    let r := orchAfterBatches env task_id limit offset batch_size force_update now st
      (totalBatches limit batch_size)
    { tasks := (complete_task r.1.tasks task_id
        [("total_requested", limit), ("loaded", r.2.1), ("errors", r.2.2), ("completed_at", now)]
        now).2
      pokedb := r.1.pokedb }

/-- The `BatchResult` of batch `k` of the run — `load_pokemons` applied to
the pokemon store the loop reaches after its first `k` batches, with the
page bounds of batch `k`. -/
def batchResultAt (env : Env) (task_id : String) (limit offset batch_size : Nat)
    (force_update : Bool) (now : Nat) (st : OrchState) (k : Nat) : BatchResult :=
  (load_pokemons env
    (orchAfterBatches env task_id limit offset batch_size force_update now st k).1.pokedb
    (min batch_size (limit - k * batch_size)) (offset + k * batch_size) force_update).1

/-- Modelled from the spec: the `round` named in the state-machine
description, `progress = round(100 * batches_done / batches_total)` —
nearest-integer rounding of the non-negative rational num/den, halves
up. -/
def specRound (num den : Nat) : Nat := (2 * num + den) / (2 * den)

/-- Pending task row used in orchestrator witnesses. -/
def c6Task : AsyncTask :=
  { id := "t1", task_type := "pokemon_load", status := "pending", params := none
    result := none, error := none, created_at := some 0, started_at := none
    completed_at := none, progress := 0, total_items := 0, processed_items := 0 }

/-- Environment whose listing call raises (models malformed listing data
escaping the loader body). -/
def cErrEnv : Env :=
  { list_page := fun _ _ => Except.error ()
    fetch_detail := fun _ => none
    process_p := fun _ => none }

/-- A node's `species` dict: name and url. -/
structure Species where
  name : String
  url : String
deriving Repr, DecidableEq

/-- One entry of a node's `evolution_details` list; `trigger` models
`get('trigger', dict()).get('name')`. -/
structure EvoDetail where
  min_level : Option Int
  trigger : Option String
deriving Repr, DecidableEq

/-- A node of the evolution-chain tree consumed by `extract_evolutions`:
either the falsy empty dict (at which `traverse_chain` returns
immediately), or a dict carrying an optional `species`, the
`evolution_details` list and the `evolves_to` children. -/
inductive ChainNode where
  | empty : ChainNode
  | node (species : Option Species) (evolution_details : List EvoDetail)
      (evolves_to : List ChainNode) : ChainNode

/-- The record `traverse_chain` appends for one non-empty node: species
name/url with empty-string defaults, and min_level/trigger taken from the
first evolution_detail when the list is non-empty, else None. -/
def chainEntry (species : Option Species) (details : List EvoDetail) : Evolution :=
  { name := (species.map (fun s => s.name)).getD ""
    url := (species.map (fun s => s.url)).getD ""
    min_level := details.head?.bind (fun d => d.min_level)
    trigger := details.head?.bind (fun d => d.trigger) }

mutual

/-- Embeds the inner `traverse_chain` of `extract_evolutions`, with the
shared `evolutions` accumulator made explicit: an empty node leaves the
accumulator unchanged; otherwise append this node's entry and walk the
children in order. -/
def traverse_chain (acc : List Evolution) : ChainNode → List Evolution
  | .empty => acc
  | .node species details children =>
      traverse_chain_list (acc ++ [chainEntry species details]) children

/-- The `for next_chain in chain.get('evolves_to', [])` loop. -/
def traverse_chain_list (acc : List Evolution) : List ChainNode → List Evolution
  | [] => acc
  | c :: cs => traverse_chain_list (traverse_chain acc c) cs

end

/-- Embeds `AsyncPokeAPIService.extract_evolutions`: `none` models a falsy
`evolution_data` payload (traversal skipped entirely); `some chain`
carries `evolution_data.get('chain', dict())`, with `ChainNode.empty`
when the `chain` key is missing. -/
def extract_evolutions : Option ChainNode → List Evolution
  | none => []
  | some chain => traverse_chain [] chain

mutual

/-- Modelled from the spec: the depth-first pre-order flattening of the
evolution tree — each node's entry first, then its subtrees in order. -/
def preorderFlatten : ChainNode → List Evolution
  | .empty => []
  | .node species details children =>
      chainEntry species details :: preorderFlattenList children

/-- Modelled from the spec: pre-order flattening of a forest, left to
right. -/
def preorderFlattenList : List ChainNode → List Evolution
  | [] => []
  | c :: cs => preorderFlatten c ++ preorderFlattenList cs

end

/-- Concrete chain nodes for the C5 examples. -/
def nodeC : ChainNode :=
  ChainNode.node (some { name := "c", url := "uC" })
    [{ min_level := some 36, trigger := some "level-up" }] []

/-- Middle node of the linear example chain. -/
def nodeB : ChainNode :=
  ChainNode.node (some { name := "b", url := "uB" })
    [{ min_level := some 16, trigger := some "level-up" }] [nodeC]

/-- Root of the linear example chain a → b → c. -/
def chainLinear : ChainNode :=
  ChainNode.node (some { name := "a", url := "uA" }) [] [nodeB]

/-- Leaf variant of b for the branching example. -/
def nodeBLeaf : ChainNode :=
  ChainNode.node (some { name := "b", url := "uB" })
    [{ min_level := some 16, trigger := some "level-up" }] []

/-- Root of the branching example chain a → (b, c). -/
def chainBranch : ChainNode :=
  ChainNode.node (some { name := "a", url := "uA" }) [] [nodeBLeaf, nodeC]

/-- Node carrying two evolution_details; only the first should be kept. -/
def nodeTwoDetails : ChainNode :=
  ChainNode.node (some { name := "d", url := "uD" })
    [{ min_level := some 7, trigger := some "level-up" },
     { min_level := some 99, trigger := some "trade" }] []

/-- Concrete normalized record used in witnesses. -/
def c4Data : ProcessedPokemon :=
  { name := "bulbasaur", height := 7, weight := 69, base_experience := some 64
    is_default := true, species := "bulbasaur", capture_rate := some 45
    base_happiness := some 50, growth_rate := "medium-slow"
    base_stats := { hp := 45, attack := 49, defense := 49, special_attack := 65
                    special_defense := 65, speed := 45, total_stats := 318 }
    abilities := [{ name := "overgrow", is_hidden := false }]
    types := ["grass", "poison"], evolutions := [], locations := [] }

/-- Empty relational store. -/
def emptyDb : Db :=
  { pokemons := [], abilities := [], types := [], pokemon_abilities := [], pokemon_types := [] }

/-- Environment where every listing/fetch/transform succeeds, with names
and urls distinct across offsets. -/
def env100 : Env :=
  { list_page := fun limit offset => Except.ok ((List.range limit).map (fun i =>
      { name := "p" ++ toString (offset + i), url := "u" ++ toString (offset + i) }))
    fetch_detail := fun u => some u
    process_p := fun u => some { c4Data with name := u } }

/-- Completed task used as the concrete row in several witnesses and
counterexamples. -/
def c2Task : AsyncTask :=
  { id := "t1", task_type := "pokemon_load", status := "completed", params := none
    result := some [("loaded", 3)], error := none, created_at := some 0
    started_at := some 1, completed_at := some 5, progress := 100
    total_items := 3, processed_items := 3 }

theorem get_setTask (db : TaskStore) (task_id : String) (t' : AsyncTask)
    (hid : t'.id = task_id) (h : (get_task db task_id).isSome) :
    get_task (setTask db task_id t') task_id = some t' := by
  induction db with
  | nil => simp [get_task] at h
  | cons u us ih =>
    cases hu : u.id == task_id with
    | true => simp [get_task, setTask, List.find?, hu, hid]
    | false =>
      simp only [get_task, setTask, List.map_cons, List.find?, hu] at h ⊢
      simp only [Bool.false_eq_true, if_false] at h ⊢
      simp only [hu] at h ⊢
      exact ih h

/-- Claim C10: for a task id absent from storage, the task mutators
`update_task_progress`, `complete_task` and `fail_task` return None and
leave the store entirely unchanged. -/
theorem c10_task_mutators_missing_id_noop (db : TaskStore) (task_id : String)
    (progress processed total now : Nat) (result : List (String × Nat)) (msg : String)
    (h : get_task db task_id = none) :
    update_task_progress db task_id progress processed total now = (none, db) ∧
    complete_task db task_id result now = (none, db) ∧
    fail_task db task_id msg now = (none, db) := by
  refine ⟨?_, ?_, ?_⟩ <;> simp [update_task_progress, complete_task, fail_task, h]

/-- Witness for C10 at a concrete store and id. -/
theorem c10_task_mutators_missing_id_noop_witness :
    get_task [c2Task] "ghost" = none ∧
    (update_task_progress [c2Task] "ghost" 5 5 10 0 = (none, [c2Task]) ∧
     complete_task [c2Task] "ghost" [("loaded", 1)] 0 = (none, [c2Task]) ∧
     fail_task [c2Task] "ghost" "boom" 0 = (none, [c2Task])) :=
  ⟨by decide, c10_task_mutators_missing_id_noop [c2Task] "ghost" 5 5 10 0
      [("loaded", 1)] "boom" (by decide)⟩

/-- Claim C2 counterexample: cancelling the already-completed task `t1`
mutates the persisted row — status becomes `cancelled` and `completed_at`
is restamped with the cancellation time — so cancel on a terminal task is
not a no-op. -/
theorem c2_cancel_terminal_mutates_row :
    c2Task.status = "completed" ∧ c2Task.completed_at = some 5 ∧
    (get_task (cancel_task { db := [c2Task], active_tasks := [] } "t1" 9).2.db "t1").map
        (fun t => (t.status, t.completed_at)) = some ("cancelled", some 9) := by
  decide

/-- Claim C2 (amended): cancelling any existing task — already-terminal ones
included — overwrites its status to `cancelled` and restamps `completed_at`
with the cancellation time; all other columns (result, error, progress,
processed/total items, timestamps) are left unchanged. -/
theorem c2_cancel_existing_overwrites_status (st : AdminState) (task_id : String)
    (now : Nat) (t : AsyncTask) (h : get_task st.db task_id = some t) :
    get_task (cancel_task st task_id now).2.db task_id =
      some { t with status := "cancelled", completed_at := some now } := by
  have h' : st.db.find? (fun u => u.id == task_id) = some t := h
  have hid : t.id = task_id := by simpa using List.find?_some h'
  unfold cancel_task
  rw [h]
  exact get_setTask st.db task_id _ hid (by rw [h]; rfl)

/-- Witness for C2 (amended) at the concrete completed task. -/
theorem c2_cancel_existing_overwrites_status_witness :
    get_task [c2Task] "t1" = some c2Task ∧
    get_task (cancel_task { db := [c2Task], active_tasks := [] } "t1" 9).2.db "t1" =
      some { c2Task with status := "cancelled", completed_at := some 9 } :=
  ⟨by decide, c2_cancel_existing_overwrites_status
      { db := [c2Task], active_tasks := [] } "t1" 9 c2Task (by decide)⟩

/-- Claim C8 counterexample: cancelling an unknown task id answers with a
success payload claiming status `cancelled` (no HTTP error is raised),
contradicting the claim that both endpoints report a client error; the
store is indeed untouched. -/
theorem c8_cancel_unknown_id_reports_success :
    get_task ([] : TaskStore) "ghost" = none ∧
    (cancel_task { db := [], active_tasks := [] } "ghost" 7).1 =
      Except.ok { task_id := "ghost", status := "cancelled" } ∧
    (cancel_task { db := [], active_tasks := [] } "ghost" 7).2 =
      { db := [], active_tasks := [] } :=
  ⟨rfl, rfl, rfl⟩

/-- Claim C8 (amended): for a task id absent from storage, the status
endpoint reports a 404 client error and leaves state unchanged, and the
cancel endpoint leaves the persisted table unchanged but answers with a
success payload (status `cancelled`) rather than a client error. -/
theorem c8_unknown_id_endpoints (st : AdminState) (task_id : String) (now : Nat)
    (h : get_task st.db task_id = none) :
    get_task_status st task_id = (Except.error 404, st) ∧
    (cancel_task st task_id now).1 =
      Except.ok { task_id := task_id, status := "cancelled" } ∧
    (cancel_task st task_id now).2.db = st.db := by
  refine ⟨?_, ?_, ?_⟩ <;> simp [get_task_status, cancel_task, h]

/-- Witness for C8 (amended) at a concrete store and unknown id. -/
theorem c8_unknown_id_endpoints_witness :
    get_task [c2Task] "ghost" = none ∧
    (get_task_status { db := [c2Task], active_tasks := [] } "ghost" =
       (Except.error 404, { db := [c2Task], active_tasks := [] }) ∧
     (cancel_task { db := [c2Task], active_tasks := [] } "ghost" 7).1 =
       Except.ok { task_id := "ghost", status := "cancelled" } ∧
     (cancel_task { db := [c2Task], active_tasks := [] } "ghost" 7).2.db = [c2Task]) :=
  ⟨by decide, c8_unknown_id_endpoints { db := [c2Task], active_tasks := [] } "ghost" 7 (by decide)⟩

theorem addAbility_pokemons (db : Db) (p : String) (a : AbilityData) :
    (addAbility db p a).pokemons = db.pokemons := by
  simp only [addAbility]
  split <;> split <;> rfl

theorem addType_pokemons (db : Db) (p : String) (t : String) :
    (addType db p t).pokemons = db.pokemons := by
  simp only [addType]
  split <;> split <;> rfl

theorem foldl_addAbility_pokemons (l : List AbilityData) (db : Db) (p : String) :
    (l.foldl (fun db a => addAbility db p a) db).pokemons = db.pokemons := by
  induction l generalizing db with
  | nil => rfl
  | cons a l ih => rw [List.foldl_cons, ih, addAbility_pokemons]

theorem foldl_addType_pokemons (l : List String) (db : Db) (p : String) :
    (l.foldl (fun db t => addType db p t) db).pokemons = db.pokemons := by
  induction l generalizing db with
  | nil => rfl
  | cons t l ih => rw [List.foldl_cons, ih, addType_pokemons]

theorem add_relationships_pokemons (db : Db) (p : String) (d : ProcessedPokemon) :
    (add_relationships db p d).pokemons = db.pokemons := by
  unfold add_relationships
  rw [foldl_addType_pokemons, foldl_addAbility_pokemons]

/-- Claim C4: upserting a record whose name is not yet stored, twice, with
`force_update = false`, yields `loaded` on the first call and `skipped` on
the second, and the second call performs no mutation — the store after the
second call is exactly the store after the first. -/
theorem c4_upsert_idempotent (db : Db) (d : ProcessedPokemon)
    (h : db.pokemons.find? (fun p => p.name == d.name) = none) :
    (save_pokemon db d false).1 = "loaded" ∧
    save_pokemon (save_pokemon db d false).2 d false =
      ("skipped", (save_pokemon db d false).2) := by
  have h1 : save_pokemon db d false =
      ("loaded", add_relationships { db with pokemons := db.pokemons ++ [buildRow d] } d.name d) := by
    simp [save_pokemon, h]
  rw [h1]
  refine ⟨rfl, ?_⟩
  have hfind : (add_relationships { db with pokemons := db.pokemons ++ [buildRow d] } d.name d).pokemons.find?
      (fun p => p.name == d.name) = some (buildRow d) := by
    rw [add_relationships_pokemons]
    simp [List.find?_append, h, buildRow]
  simp [save_pokemon, hfind]

/-- Witness for C4 at the empty store and a concrete record. -/
theorem c4_upsert_idempotent_witness :
    emptyDb.pokemons.find? (fun p => p.name == c4Data.name) = none ∧
    ((save_pokemon emptyDb c4Data false).1 = "loaded" ∧
     save_pokemon (save_pokemon emptyDb c4Data false).2 c4Data false =
       ("skipped", (save_pokemon emptyDb c4Data false).2)) :=
  ⟨rfl, c4_upsert_idempotent emptyDb c4Data rfl⟩

theorem processOne_sum (env : Env) (f : Bool) (acc : LoadCounts × Db) (pd : String) :
    countsSum (processOne env f acc pd).1 = countsSum acc.1 + 1 := by
  obtain ⟨c, db⟩ := acc
  simp only [processOne]
  cases env.process_p pd with
  | none => simp only [countsSum]; omega
  | some proc =>
    repeat' split
    all_goals simp only [countsSum]
    all_goals omega

theorem foldl_processOne_sum (env : Env) (f : Bool) (l : List String) (acc : LoadCounts × Db) :
    countsSum ((l.foldl (processOne env f) acc)).1 = countsSum acc.1 + l.length := by
  induction l generalizing acc with
  | nil => simp
  | cons x l ih =>
    rw [List.foldl_cons, ih, processOne_sum]
    simp only [List.length_cons]
    omega

theorem foldl_loadStep_sum (env : Env) (f : Bool) (chunks : List (List String))
    (acc : LoadCounts × Db) :
    countsSum ((chunks.foldl (loadStep env f) acc)).1 =
      countsSum acc.1 + (chunks.map (fun b => (b.filterMap env.fetch_detail).length)).sum := by
  induction chunks generalizing acc with
  | nil => simp
  | cons b bs ih =>
    rw [List.foldl_cons, ih]
    simp only [loadStep, foldl_processOne_sum, List.map_cons, List.sum_cons]
    omega

theorem chunkList_nil (n : Nat) : chunkList n ([] : List α) = [] := by
  unfold chunkList
  have h0 : (List.length ([] : List α) + n - 1) / n = 0 := by
    cases n with
    | zero => simp
    | succ m => exact Nat.div_eq_of_lt (by simp)
  rw [h0]
  rfl

theorem chunkList_cons (n : Nat) (hn : 0 < n) (xs : List α) (hx : xs ≠ []) :
    chunkList n xs = xs.take n :: chunkList n (xs.drop n) := by
  have hL : 1 ≤ xs.length := by
    cases xs with
    | nil => exact absurd rfl hx
    | cons a r => simp
  unfold chunkList
  have hk : (xs.length + n - 1) / n = ((xs.drop n).length + n - 1) / n + 1 := by
    rw [List.length_drop]
    have e1 : xs.length + n - 1 = (xs.length - 1) + n := by omega
    rw [e1, Nat.add_div_right _ hn]
    have e2 : (xs.length - n + n - 1) / n = (xs.length - 1) / n := by
      rcases le_or_lt xs.length n with h | h
      · have e3 : xs.length - n = 0 := by omega
        rw [e3]
        have e4 : 0 + n - 1 = n - 1 := by omega
        rw [e4, Nat.div_eq_of_lt (by omega), Nat.div_eq_of_lt (by omega)]
      · have e3 : xs.length - n + n - 1 = xs.length - 1 := by omega
        rw [e3]
    rw [e2]
  rw [hk, List.range_succ_eq_map, List.map_cons, List.map_map]
  refine congrArg₂ _ ?_ ?_
  · simp
  · refine List.map_congr_left fun i _ => ?_
    simp only [Function.comp_apply, List.drop_drop]
    simp only [Nat.succ_eq_add_one]
    ring_nf

theorem chunkList_flatten (n : Nat) (hn : 0 < n) (xs : List α) :
    (chunkList n xs).flatten = xs := by
  have H : ∀ (m : Nat) (ys : List α), ys.length ≤ m → (chunkList n ys).flatten = ys := by
    intro m
    induction m with
    | zero =>
      intro ys h
      have : ys = [] := List.length_eq_zero.mp (Nat.le_zero.mp h)
      rw [this, chunkList_nil]
      rfl
    | succ m ih =>
      intro ys h
      by_cases hys : ys = []
      · rw [hys, chunkList_nil]; rfl
      · have hpos : 0 < ys.length := List.length_pos.mpr hys
        have hm : (ys.drop n).length ≤ m := by
          rw [List.length_drop]
          omega
        rw [chunkList_cons n hn ys hys, List.flatten_cons, ih (ys.drop n) hm,
            List.take_append_drop]
  exact H xs.length xs (Nat.le_refl _)

theorem filterMap_length_over_chunks (g : String → Option String) (n : Nat) (hn : 0 < n)
    (xs : List String) :
    ((chunkList n xs).map (fun b => (b.filterMap g).length)).sum = (xs.filterMap g).length := by
  conv_rhs => rw [← chunkList_flatten n hn xs]
  rw [List.filterMap_flatten, List.length_flatten, List.map_map]
  rfl

/-- Claim C1 counterexample: with one listed item whose detail fetch fails,
the four counters sum to 0 while `total_requested = 1` — the accounting
identity does not hold because items dropped by `fetch_pokemon_details`
are never counted. -/
theorem c1_accounting_identity_fails :
    (load_pokemons c1Env emptyDb 1 0 false).1.total_requested = 1 ∧
    (load_pokemons c1Env emptyDb 1 0 false).1.loaded +
      (load_pokemons c1Env emptyDb 1 0 false).1.updated +
      (load_pokemons c1Env emptyDb 1 0 false).1.skipped +
      (load_pokemons c1Env emptyDb 1 0 false).1.errors = 0 := by
  decide

/-- Claim C1 (amended): in every batch run the four counters sum to the
number of detail documents successfully fetched — items whose detail fetch
fails are silently dropped from every counter — so the sum is bounded by,
but need not equal, `total_requested`; the identity to `total_requested`
does hold on the empty-listing and escaping-exception paths. -/
theorem c1_counts_sum_eq_fetched (env : Env) (db : Db) (limit offset : Nat)
    (force_update : Bool) :
    ((load_pokemons env db limit offset force_update).1.loaded +
     (load_pokemons env db limit offset force_update).1.updated +
     (load_pokemons env db limit offset force_update).1.skipped +
     (load_pokemons env db limit offset force_update).1.errors =
      (match env.list_page limit offset with
       | .error _ => limit
       | .ok lst => ((lst.map (fun p => p.url)).filterMap env.fetch_detail).length)) ∧
    (load_pokemons env db limit offset force_update).1.loaded +
     (load_pokemons env db limit offset force_update).1.updated +
     (load_pokemons env db limit offset force_update).1.skipped +
     (load_pokemons env db limit offset force_update).1.errors ≤
      (load_pokemons env db limit offset force_update).1.total_requested := by
  have key : (load_pokemons env db limit offset force_update).1.loaded +
     (load_pokemons env db limit offset force_update).1.updated +
     (load_pokemons env db limit offset force_update).1.skipped +
     (load_pokemons env db limit offset force_update).1.errors =
      (match env.list_page limit offset with
       | .error _ => limit
       | .ok lst => ((lst.map (fun p => p.url)).filterMap env.fetch_detail).length) := by
    unfold load_pokemons
    cases hl : env.list_page limit offset with
    | error e => simp
    | ok lst =>
      by_cases he : lst.isEmpty
      · have : lst = [] := List.isEmpty_iff.mp he
        subst this
        simp
      · simp only [he, if_false, Bool.false_eq_true]
        have hsum := foldl_loadStep_sum env force_update
          (chunkList loader_batch_size (lst.map (fun p => p.url)))
          ({ loaded := 0, updated := 0, skipped := 0, errors := 0, details := [] }, db)
        simp only [countsSum] at hsum
        simp only [hsum, filterMap_length_over_chunks env.fetch_detail loader_batch_size
          (by decide) (lst.map (fun p => p.url))]
        omega
  refine ⟨key, ?_⟩
  rw [key]
  unfold load_pokemons
  cases hl : env.list_page limit offset with
  | error e => simp
  | ok lst =>
    by_cases he : lst.isEmpty
    · have : lst = [] := List.isEmpty_iff.mp he
      subst this
      simp
    · simp only [he, if_false, Bool.false_eq_true]
      calc ((lst.map (fun p => p.url)).filterMap env.fetch_detail).length
          ≤ (lst.map (fun p => p.url)).length := List.length_filterMap_le _ _
        _ = lst.length := List.length_map _ _

/-- Claim C3 counterexample: a listing call that cannot reach the source is
swallowed by `fetch_data`, the listing comes back empty, and a batch run
with requested limit 5 returns the all-zero result — `errors = 0` and
`total_requested = 0`, not `errors = 5`. -/
theorem c3_listing_failure_yields_zero_result :
    (load_pokemons c3Env emptyDb 5 0 false).1 =
      { total_requested := 0, loaded := 0, updated := 0, skipped := 0,
        errors := 0, next_offset := none, details := [] } ∧
    (load_pokemons c3Env emptyDb 5 0 false).1.errors ≠ 5 := by
  decide

theorem get_task_after_update (db : TaskStore) (id : String) (p pr tot now : Nat)
    (t : AsyncTask) (h : get_task db id = some t) :
    get_task (update_task_progress db id p pr tot now).2 id =
      some (if t.status == "pending"
        then { t with
                 progress := p, processed_items := pr, total_items := tot,
                 status := "running", started_at := some now }
        else { t with progress := p, processed_items := pr, total_items := tot }) := by
  have h' : db.find? (fun u => u.id == id) = some t := h
  have hid : t.id = id := by simpa using List.find?_some h'
  have hsome : (get_task db id).isSome := by rw [h]; rfl
  unfold update_task_progress
  rw [h]
  dsimp only
  by_cases hs : t.status == "pending"
  · simp only [hs, if_true]
    exact get_setTask db id _ (by simp [hid]) hsome
  · simp only [hs, Bool.false_eq_true, if_false]
    exact get_setTask db id _ (by simp [hid]) hsome

theorem get_task_after_complete (db : TaskStore) (id : String)
    (result : List (String × Nat)) (now : Nat) (t : AsyncTask)
    (h : get_task db id = some t) :
    get_task (complete_task db id result now).2 id =
      some { t with
               status := "completed", result := some result,
               completed_at := some now, progress := 100 } := by
  have h' : db.find? (fun u => u.id == id) = some t := h
  have hid : t.id = id := by simpa using List.find?_some h'
  have hsome : (get_task db id).isSome := by rw [h]; rfl
  unfold complete_task
  rw [h]
  exact get_setTask db id _ (by simp [hid]) hsome

theorem get_task_after_fail (db : TaskStore) (id : String)
    (msg : String) (now : Nat) (t : AsyncTask)
    (h : get_task db id = some t) :
    get_task (fail_task db id msg now).2 id =
      some { t with
               status := "failed", error := some msg,
               completed_at := some now } := by
  have h' : db.find? (fun u => u.id == id) = some t := h
  have hid : t.id = id := by simpa using List.find?_some h'
  have hsome : (get_task db id).isSome := by rw [h]; rfl
  unfold fail_task
  rw [h]
  exact get_setTask db id _ (by simp [hid]) hsome

theorem orchAfterBatches_succ (env : Env) (task_id : String) (limit offset bs : Nat)
    (f : Bool) (now : Nat) (st : OrchState) (k : Nat) :
    orchAfterBatches env task_id limit offset bs f now st (k + 1) =
      orchBatchStep env task_id limit offset bs f now
        (orchAfterBatches env task_id limit offset bs f now st k) k := by
  unfold orchAfterBatches
  rw [List.range_succ, List.foldl_append, List.foldl_cons, List.foldl_nil]

theorem orch_task_isSome (env : Env) (task_id : String) (limit offset bs : Nat)
    (f : Bool) (now : Nat) (st : OrchState) (k : Nat)
    (h : (get_task st.tasks task_id).isSome) :
    (get_task (orchAfterBatches env task_id limit offset bs f now st k).1.tasks
      task_id).isSome := by
  induction k with
  | zero =>
    obtain ⟨t, ht⟩ := Option.isSome_iff_exists.mp h
    unfold orchAfterBatches
    simp only [List.range_zero, List.foldl_nil]
    rw [get_task_after_update st.tasks task_id 0 0 limit now t ht]
    rfl
  | succ k ih =>
    rw [orchAfterBatches_succ]
    obtain ⟨t, ht⟩ := Option.isSome_iff_exists.mp ih
    simp only [orchBatchStep]
    rw [get_task_after_update _ task_id _ _ _ now t ht]
    rfl

theorem orch_progress_char (env : Env) (task_id : String) (limit offset bs : Nat)
    (f : Bool) (now : Nat) (st : OrchState) (k : Nat)
    (h : (get_task st.tasks task_id).isSome) :
    ∃ t', get_task (orchAfterBatches env task_id limit offset bs f now st k).1.tasks task_id
        = some t' ∧
      t'.progress = (if k = 0 then 0 else pyProgress k (totalBatches limit bs)) ∧
      t'.processed_items = (if k = 0 then 0 else min (k * bs) limit) := by
  induction k with
  | zero =>
    obtain ⟨t, ht⟩ := Option.isSome_iff_exists.mp h
    unfold orchAfterBatches
    simp only [List.range_zero, List.foldl_nil]
    rw [get_task_after_update st.tasks task_id 0 0 limit now t ht]
    refine ⟨_, rfl, ?_, ?_⟩ <;> by_cases hs : t.status == "pending" <;> simp [hs]
  | succ k ih =>
    obtain ⟨t, ht, _, _⟩ := ih
    rw [orchAfterBatches_succ]
    simp only [orchBatchStep]
    rw [get_task_after_update _ task_id _ _ _ now t ht]
    refine ⟨_, rfl, ?_, ?_⟩ <;> by_cases hs : t.status == "pending" <;>
      simp [hs]

theorem orch_totals (env : Env) (task_id : String) (limit offset bs : Nat)
    (f : Bool) (now : Nat) (st : OrchState) (k : Nat) :
    (orchAfterBatches env task_id limit offset bs f now st k).2 =
      (((List.range k).map (fun n =>
          (batchResultAt env task_id limit offset bs f now st n).loaded)).sum,
       ((List.range k).map (fun n =>
          (batchResultAt env task_id limit offset bs f now st n).errors)).sum) := by
  induction k with
  | zero => simp [orchAfterBatches]
  | succ k ih =>
    rw [orchAfterBatches_succ]
    simp only [orchBatchStep]
    rw [ih]
    simp [List.range_succ, batchResultAt]

theorem natLog2Aux_spec (fuel : Nat) : ∀ n : Nat, n ≤ fuel → 1 ≤ n →
    2 ^ natLog2Aux fuel n ≤ n ∧ n < 2 ^ (natLog2Aux fuel n + 1) := by
  induction fuel with
  | zero => intro n h h1; omega
  | succ fuel ih =>
    intro n h h1
    by_cases h2 : 2 ≤ n
    · have hn2 : 1 ≤ n / 2 := by omega
      have hf : n / 2 ≤ fuel := by omega
      obtain ⟨ha, hb⟩ := ih (n / 2) hf hn2
      simp only [natLog2Aux, if_pos h2]
      have e1 : (2:Nat) ^ (natLog2Aux fuel (n / 2) + 1) = 2 ^ natLog2Aux fuel (n / 2) * 2 :=
        pow_succ 2 _
      have e2 : (2:Nat) ^ (natLog2Aux fuel (n / 2) + 1 + 1) =
          2 ^ natLog2Aux fuel (n / 2) * 2 * 2 := by rw [pow_succ, pow_succ]
      rw [e1] at hb
      constructor
      · rw [e1]; omega
      · rw [e2]; omega
    · simp only [natLog2Aux, if_neg h2]
      refine ⟨by simpa using h1, ?_⟩
      have : n < 2 := by omega
      simpa using this

theorem natLog2_spec (n : Nat) (h : 1 ≤ n) :
    2 ^ natLog2 n ≤ n ∧ n < 2 ^ (natLog2 n + 1) :=
  natLog2Aux_spec n n (Nat.le_refl n) h

theorem rne_floor_le (a b : Nat) : a / b ≤ rne a b := by
  unfold rne
  split
  · omega
  · split
    · omega
    · omega

theorem rne_le_floor_succ (a b : Nat) : rne a b ≤ a / b + 1 := by
  unfold rne
  split
  · omega
  · split
    · omega
    · omega

theorem rne_exact (a b : Nat) (hb : 1 ≤ b) (h : a % b = 0) : rne a b = a / b := by
  have c1 : ¬ (b < 2 * (a % b)) := by omega
  have c2 : 2 * (a % b) < b := by omega
  simp [rne, c1, c2]

theorem rne_mono (a1 b1 a2 b2 : Nat) (hb1 : 1 ≤ b1) (hb2 : 1 ≤ b2)
    (h : a1 * b2 ≤ a2 * b1) : rne a1 b1 ≤ rne a2 b2 := by
  have e1 := Nat.div_add_mod a1 b1
  have e2 := Nat.div_add_mod a2 b2
  have r1lt : a1 % b1 < b1 := Nat.mod_lt _ (by omega)
  have r2lt : a2 % b2 < b2 := Nat.mod_lt _ (by omega)
  rcases Nat.lt_trichotomy (a1 / b1) (a2 / b2) with hf | hf | hf
  · have u1 := rne_le_floor_succ a1 b1
    have u2 := rne_floor_le a2 b2
    omega
  · have key : (a1 % b1) * b2 ≤ (a2 % b2) * b1 := by
      have expand : (b1 * (a1 / b1) + a1 % b1) * b2 ≤ (b2 * (a2 / b2) + a2 % b2) * b1 := by
        rw [e1, e2]; exact h
      rw [hf] at expand
      have ee : (b1 * (a2 / b2) + a1 % b1) * b2 =
          b1 * (a2 / b2) * b2 + (a1 % b1) * b2 := by ring
      have ff : (b2 * (a2 / b2) + a2 % b2) * b1 =
          b1 * (a2 / b2) * b2 + (a2 % b2) * b1 := by ring
      omega
    by_cases c1 : b1 < 2 * (a1 % b1)
    · have c2 : b2 < 2 * (a2 % b2) := by
        have s1 : b1 * b2 < 2 * (a1 % b1) * b2 :=
          mul_lt_mul_of_pos_right c1 (by omega)
        have s2 : 2 * (a1 % b1) * b2 ≤ 2 * (a2 % b2) * b1 := by
          calc 2 * (a1 % b1) * b2 = 2 * ((a1 % b1) * b2) := by ring
            _ ≤ 2 * ((a2 % b2) * b1) := Nat.mul_le_mul_left 2 key
            _ = 2 * (a2 % b2) * b1 := by ring
        have s3 : b1 * b2 < b1 * (2 * (a2 % b2)) := by
          calc b1 * b2 < 2 * (a2 % b2) * b1 := lt_of_lt_of_le s1 s2
            _ = b1 * (2 * (a2 % b2)) := by ring
        exact Nat.lt_of_mul_lt_mul_left s3
      have w1 : rne a1 b1 = a1 / b1 + 1 := by simp [rne, c1]
      have w2 : rne a2 b2 = a2 / b2 + 1 := by simp [rne, c2]
      omega
    · by_cases c2 : 2 * (a1 % b1) < b1
      · have u2 := rne_floor_le a2 b2
        have w1 : rne a1 b1 = a1 / b1 := by simp [rne, c1, c2]
        omega
      · have t1 : 2 * (a1 % b1) = b1 := by omega
        by_cases c3 : b2 < 2 * (a2 % b2)
        · have v1 := rne_le_floor_succ a1 b1
          have v2 : rne a2 b2 = a2 / b2 + 1 := by simp [rne, c3]
          omega
        · by_cases c4 : 2 * (a2 % b2) < b2
          · exfalso
            have s1 : b1 * b2 = 2 * (a1 % b1) * b2 := by rw [t1]
            have s2 : 2 * (a1 % b1) * b2 ≤ 2 * (a2 % b2) * b1 := by
              calc 2 * (a1 % b1) * b2 = 2 * ((a1 % b1) * b2) := by ring
                _ ≤ 2 * ((a2 % b2) * b1) := Nat.mul_le_mul_left 2 key
                _ = 2 * (a2 % b2) * b1 := by ring
            have s3 : 2 * (a2 % b2) * b1 < b2 * b1 :=
              mul_lt_mul_of_pos_right c4 (by omega)
            have s4 : b1 * b2 < b2 * b1 := by omega
            rw [Nat.mul_comm b1 b2] at s4
            omega
          · have t2 : 2 * (a2 % b2) = b2 := by omega
            have w1 : rne a1 b1 = a1 / b1 + (a1 / b1) % 2 := by simp [rne, c1, c2]
            have w2 : rne a2 b2 = a2 / b2 + (a2 / b2) % 2 := by simp [rne, c3, c4]
            omega
  · exfalso
    have hl : a2 / b2 + 1 ≤ a1 / b1 := by omega
    have step1 : a2 * b1 < b2 * (a2 / b2 + 1) * b1 := by
      have hq : b2 * (a2 / b2 + 1) = b2 * (a2 / b2) + b2 := by ring
      have : a2 < b2 * (a2 / b2 + 1) := by omega
      exact mul_lt_mul_of_pos_right this (by omega)
    have step2 : b2 * (a2 / b2 + 1) * b1 ≤ b2 * (a1 / b1) * b1 :=
      Nat.mul_le_mul_right _ (Nat.mul_le_mul_left _ hl)
    have step3 : b2 * (a1 / b1) * b1 ≤ a1 * b2 := by
      have hfl : b1 * (a1 / b1) ≤ a1 := by omega
      calc b2 * (a1 / b1) * b1 = (b1 * (a1 / b1)) * b2 := by ring
        _ ≤ a1 * b2 := Nat.mul_le_mul_right _ hfl
    omega

theorem scaleInto_spec (n d : Nat) (hn : 1 ≤ n) (hd : 1 ≤ d) :
    2 ^ 52 * (d * 2 ^ (scaleInto n d).2) ≤ n * 2 ^ (scaleInto n d).1 ∧
    n * 2 ^ (scaleInto n d).1 < 2 ^ 53 * (d * 2 ^ (scaleInto n d).2) := by
  by_cases hdn : d ≤ n
  · have hq : 1 ≤ n / d := (Nat.one_le_div_iff (by omega)).mpr hdn
    obtain ⟨ha, hb⟩ := natLog2_spec (n / d) hq
    have A1 : d * 2 ^ natLog2 (n / d) ≤ n := by
      calc d * 2 ^ natLog2 (n / d) ≤ d * (n / d) := Nat.mul_le_mul_left d ha
        _ = (n / d) * d := by ring
        _ ≤ n := Nat.div_mul_le_self n d
    have A2 : n < d * 2 ^ (natLog2 (n / d) + 1) := by
      have hlt := (Nat.div_lt_iff_lt_mul (show 0 < d by omega)).mp hb
      calc n < 2 ^ (natLog2 (n / d) + 1) * d := hlt
        _ = d * 2 ^ (natLog2 (n / d) + 1) := by ring
    by_cases hz : natLog2 (n / d) ≤ 52
    · have hs : scaleInto n d = (52 - natLog2 (n / d), 0) := by
        simp [scaleInto, hdn, hz]
      rw [hs]
      constructor
      · have e : (2:Nat) ^ 52 = 2 ^ natLog2 (n / d) * 2 ^ (52 - natLog2 (n / d)) := by
          rw [← pow_add]; congr 1; omega
        calc 2 ^ 52 * (d * 2 ^ 0) = (d * 2 ^ natLog2 (n / d)) * 2 ^ (52 - natLog2 (n / d)) := by
              rw [e]; ring
          _ ≤ n * 2 ^ (52 - natLog2 (n / d)) := Nat.mul_le_mul_right _ A1
      · have e : (2:Nat) ^ 53 = 2 ^ (natLog2 (n / d) + 1) * 2 ^ (52 - natLog2 (n / d)) := by
          rw [← pow_add]; congr 1; omega
        calc n * 2 ^ (52 - natLog2 (n / d))
            < (d * 2 ^ (natLog2 (n / d) + 1)) * 2 ^ (52 - natLog2 (n / d)) :=
              mul_lt_mul_of_pos_right A2 (by positivity)
          _ = 2 ^ 53 * (d * 2 ^ 0) := by rw [e]; ring
    · have hs : scaleInto n d = (0, natLog2 (n / d) - 52) := by
        simp [scaleInto, hdn, hz]
      rw [hs]
      constructor
      · have e : (2:Nat) ^ natLog2 (n / d) = 2 ^ 52 * 2 ^ (natLog2 (n / d) - 52) := by
          rw [← pow_add]; congr 1; omega
        calc 2 ^ 52 * (d * 2 ^ (natLog2 (n / d) - 52)) = d * 2 ^ natLog2 (n / d) := by
              rw [e]; ring
          _ ≤ n := A1
          _ = n * 2 ^ 0 := by ring
      · have e : (2:Nat) ^ (natLog2 (n / d) + 1) = 2 ^ 53 * 2 ^ (natLog2 (n / d) - 52) := by
          rw [← pow_add]; congr 1; omega
        calc n * 2 ^ 0 = n := by ring
          _ < d * 2 ^ (natLog2 (n / d) + 1) := A2
          _ = 2 ^ 53 * (d * 2 ^ (natLog2 (n / d) - 52)) := by rw [e]; ring
  · have hnd : n < d := by omega
    have hq : 1 ≤ d / n := (Nat.one_le_div_iff (by omega)).mpr (by omega)
    obtain ⟨ha, hb⟩ := natLog2_spec (d / n) hq
    have B1 : n * 2 ^ natLog2 (d / n) ≤ d := by
      calc n * 2 ^ natLog2 (d / n) ≤ n * (d / n) := Nat.mul_le_mul_left n ha
        _ = (d / n) * n := by ring
        _ ≤ d := Nat.div_mul_le_self d n
    have B2 : d < n * 2 ^ (natLog2 (d / n) + 1) := by
      have hlt := (Nat.div_lt_iff_lt_mul (show 0 < n by omega)).mp hb
      calc d < 2 ^ (natLog2 (d / n) + 1) * n := hlt
        _ = n * 2 ^ (natLog2 (d / n) + 1) := by ring
    by_cases he : n * 2 ^ natLog2 (d / n) = d
    · have hs : scaleInto n d = (52 + natLog2 (d / n), 0) := by
        simp [scaleInto, hdn, he]
      rw [hs]
      constructor
      · refine le_of_eq ?_
        calc 2 ^ 52 * (d * 2 ^ 0) = 2 ^ 52 * d := by ring
          _ = (n * 2 ^ natLog2 (d / n)) * 2 ^ 52 := by rw [he]; ring
          _ = n * 2 ^ (52 + natLog2 (d / n)) := by
              rw [show 52 + natLog2 (d / n) = natLog2 (d / n) + 52 by omega, pow_add]; ring
      · calc n * 2 ^ (52 + natLog2 (d / n))
            = (n * 2 ^ natLog2 (d / n)) * 2 ^ 52 := by
              rw [show 52 + natLog2 (d / n) = natLog2 (d / n) + 52 by omega, pow_add]; ring
          _ = 2 ^ 52 * d := by rw [he]; ring
          _ < 2 ^ 53 * (d * 2 ^ 0) := by
              have h52 : (2:Nat) ^ 52 < 2 ^ 53 := by norm_num
              calc 2 ^ 52 * d < 2 ^ 53 * d := mul_lt_mul_of_pos_right h52 (by omega)
                _ = 2 ^ 53 * (d * 2 ^ 0) := by ring
    · have hs : scaleInto n d = (52 + natLog2 (d / n) + 1, 0) := by
        simp [scaleInto, hdn, he]
      rw [hs]
      constructor
      · have hle : d ≤ n * 2 ^ (natLog2 (d / n) + 1) := Nat.le_of_lt B2
        calc 2 ^ 52 * (d * 2 ^ 0) = d * 2 ^ 52 := by ring
          _ ≤ (n * 2 ^ (natLog2 (d / n) + 1)) * 2 ^ 52 := Nat.mul_le_mul_right _ hle
          _ = n * 2 ^ (52 + natLog2 (d / n) + 1) := by
              rw [show 52 + natLog2 (d / n) + 1 = (natLog2 (d / n) + 1) + 52 by omega, pow_add]
              ring
      · have hlt : n * 2 ^ natLog2 (d / n) < d := Nat.lt_of_le_of_ne B1 he
        calc n * 2 ^ (52 + natLog2 (d / n) + 1)
            = (n * 2 ^ natLog2 (d / n)) * 2 ^ 53 := by
              rw [show 52 + natLog2 (d / n) + 1 = natLog2 (d / n) + 53 by omega, pow_add]; ring
          _ < d * 2 ^ 53 := mul_lt_mul_of_pos_right hlt (by positivity)
          _ = 2 ^ 53 * (d * 2 ^ 0) := by ring

theorem roundF_num_lb (n d : Nat) (hn : 1 ≤ n) (hd : 1 ≤ d) :
    2 ^ 52 ≤ rne (n * 2 ^ (scaleInto n d).1) (d * 2 ^ (scaleInto n d).2) := by
  obtain ⟨h1, _⟩ := scaleInto_spec n d hn hd
  have hD : 0 < d * 2 ^ (scaleInto n d).2 := by positivity
  have hfl : 2 ^ 52 ≤ (n * 2 ^ (scaleInto n d).1) / (d * 2 ^ (scaleInto n d).2) :=
    (Nat.le_div_iff_mul_le hD).mpr h1
  exact le_trans hfl (rne_floor_le _ _)

theorem roundF_num_ub (n d : Nat) (hn : 1 ≤ n) (hd : 1 ≤ d) :
    rne (n * 2 ^ (scaleInto n d).1) (d * 2 ^ (scaleInto n d).2) ≤ 2 ^ 53 := by
  obtain ⟨_, h2⟩ := scaleInto_spec n d hn hd
  have hD : 0 < d * 2 ^ (scaleInto n d).2 := by positivity
  have hfl : (n * 2 ^ (scaleInto n d).1) / (d * 2 ^ (scaleInto n d).2) < 2 ^ 53 := by
    rw [Nat.div_lt_iff_lt_mul hD]
    calc n * 2 ^ (scaleInto n d).1 < 2 ^ 53 * (d * 2 ^ (scaleInto n d).2) := h2
      _ = 2 ^ 53 * (d * 2 ^ (scaleInto n d).2) := rfl
  have := rne_le_floor_succ (n * 2 ^ (scaleInto n d).1) (d * 2 ^ (scaleInto n d).2)
  omega

theorem roundF_pos (n d : Nat) (hn : 1 ≤ n) (hd : 1 ≤ d) :
    1 ≤ (roundF n d).1 ∧ 1 ≤ (roundF n d).2 := by
  have hlb := roundF_num_lb n d hn hd
  constructor
  · simp only [roundF]
    have h1 : (1:Nat) ≤ 2 ^ (scaleInto n d).2 := Nat.one_le_two_pow
    calc (1:Nat) = 1 * 1 := by ring
      _ ≤ rne (n * 2 ^ (scaleInto n d).1) (d * 2 ^ (scaleInto n d).2) * 2 ^ (scaleInto n d).2 := by
          have : (1:Nat) ≤ rne (n * 2 ^ (scaleInto n d).1) (d * 2 ^ (scaleInto n d).2) := by
            have : (1:Nat) ≤ 2 ^ 52 := Nat.one_le_two_pow
            omega
          exact Nat.mul_le_mul this h1
  · simp only [roundF]
    exact Nat.one_le_two_pow

theorem roundF_mono (n1 d1 n2 d2 : Nat) (hn1 : 1 ≤ n1) (hd1 : 1 ≤ d1)
    (hn2 : 1 ≤ n2) (hd2 : 1 ≤ d2) (h : n1 * d2 ≤ n2 * d1) :
    (roundF n1 d1).1 * (roundF n2 d2).2 ≤ (roundF n2 d2).1 * (roundF n1 d1).2 := by
  obtain ⟨s1a, s1b⟩ := scaleInto_spec n1 d1 hn1 hd1
  obtain ⟨s2a, s2b⟩ := scaleInto_spec n2 d2 hn2 hd2
  have hm1ub : rne (n1 * 2 ^ (scaleInto n1 d1).1) (d1 * 2 ^ (scaleInto n1 d1).2) ≤ 2 ^ 53 :=
    roundF_num_ub n1 d1 hn1 hd1
  have hm2lb : 2 ^ 52 ≤ rne (n2 * 2 ^ (scaleInto n2 d2).1) (d2 * 2 ^ (scaleInto n2 d2).2) :=
    roundF_num_lb n2 d2 hn2 hd2
  simp only [roundF]
  set u1 := (scaleInto n1 d1).1 with hu1
  set v1 := (scaleInto n1 d1).2 with hv1
  set u2 := (scaleInto n2 d2).1 with hu2
  set v2 := (scaleInto n2 d2).2 with hv2
  set m1 := rne (n1 * 2 ^ u1) (d1 * 2 ^ v1) with hm1
  set m2 := rne (n2 * 2 ^ u2) (d2 * 2 ^ v2) with hm2
  rcases le_or_lt (v1 + u2) (v2 + u1) with hAB | hAB
  · rcases eq_or_lt_of_le hAB with hEq | hLt
    · have hm : m1 ≤ m2 := by
        rw [hm1, hm2]
        apply rne_mono _ _ _ _ (Nat.succ_le_of_lt (by positivity)) (Nat.succ_le_of_lt (by positivity))
        calc (n1 * 2 ^ u1) * (d2 * 2 ^ v2) = (n1 * d2) * 2 ^ (u1 + v2) := by
              rw [pow_add]; ring
          _ ≤ (n2 * d1) * 2 ^ (u1 + v2) := Nat.mul_le_mul_right _ h
          _ = (n2 * d1) * 2 ^ (u2 + v1) := by rw [show u1 + v2 = u2 + v1 by omega]
          _ = (n2 * 2 ^ u2) * (d1 * 2 ^ v1) := by rw [pow_add]; ring
      calc (m1 * 2 ^ v1) * 2 ^ u2 = m1 * 2 ^ (v1 + u2) := by rw [pow_add]; ring
        _ ≤ m2 * 2 ^ (v1 + u2) := Nat.mul_le_mul_right _ hm
        _ = m2 * 2 ^ (v2 + u1) := by rw [hEq]
        _ = (m2 * 2 ^ v2) * 2 ^ u1 := by rw [pow_add]; ring
    · calc (m1 * 2 ^ v1) * 2 ^ u2 = m1 * 2 ^ (v1 + u2) := by rw [pow_add]; ring
        _ ≤ 2 ^ 53 * 2 ^ (v1 + u2) := Nat.mul_le_mul_right _ hm1ub
        _ = 2 ^ 52 * 2 ^ (v1 + u2 + 1) := by rw [← pow_add, ← pow_add]; congr 1; omega
        _ ≤ 2 ^ 52 * 2 ^ (v2 + u1) :=
            Nat.mul_le_mul_left _ (Nat.pow_le_pow_right (by omega) (by omega))
        _ ≤ m2 * 2 ^ (v2 + u1) := Nat.mul_le_mul_right _ hm2lb
        _ = (m2 * 2 ^ v2) * 2 ^ u1 := by rw [pow_add]; ring
  · exfalso
    have k1 : 2 ^ 52 * (d1 * d2 * 2 ^ (v1 + v2)) ≤ (n1 * d2) * 2 ^ (u1 + v2) := by
      calc 2 ^ 52 * (d1 * d2 * 2 ^ (v1 + v2))
          = (2 ^ 52 * (d1 * 2 ^ v1)) * (d2 * 2 ^ v2) := by rw [pow_add]; ring
        _ ≤ (n1 * 2 ^ u1) * (d2 * 2 ^ v2) := Nat.mul_le_mul_right _ s1a
        _ = (n1 * d2) * 2 ^ (u1 + v2) := by rw [pow_add]; ring
    have k2 : (n2 * d1) * 2 ^ (u2 + v1) < 2 ^ 53 * (d1 * d2 * 2 ^ (v1 + v2)) := by
      calc (n2 * d1) * 2 ^ (u2 + v1) = (n2 * 2 ^ u2) * (d1 * 2 ^ v1) := by
            rw [pow_add]; ring
        _ < (2 ^ 53 * (d2 * 2 ^ v2)) * (d1 * 2 ^ v1) :=
            mul_lt_mul_of_pos_right s2b (by positivity)
        _ = 2 ^ 53 * (d1 * d2 * 2 ^ (v1 + v2)) := by rw [pow_add]; ring
    have k3 : (n1 * d2) * 2 ^ (u2 + v1) ≤ (n2 * d1) * 2 ^ (u2 + v1) :=
      Nat.mul_le_mul_right _ h
    have k4 : (n1 * d2) * 2 ^ (u1 + v2) * 2 ≤ (n1 * d2) * 2 ^ (u2 + v1) := by
      calc (n1 * d2) * 2 ^ (u1 + v2) * 2 = (n1 * d2) * 2 ^ (u1 + v2 + 1) := by
            rw [pow_succ]; ring
        _ ≤ (n1 * d2) * 2 ^ (u2 + v1) :=
            Nat.mul_le_mul_left _ (Nat.pow_le_pow_right (by omega) (by omega))
    have k5 : 2 ^ 53 * (d1 * d2 * 2 ^ (v1 + v2)) ≤ (n1 * d2) * 2 ^ (u1 + v2) * 2 := by
      calc 2 ^ 53 * (d1 * d2 * 2 ^ (v1 + v2))
          = 2 ^ 52 * (d1 * d2 * 2 ^ (v1 + v2)) * 2 := by
            rw [show (2:Nat) ^ 53 = 2 ^ 52 * 2 by norm_num]; ring
        _ ≤ (n1 * d2) * 2 ^ (u1 + v2) * 2 := Nat.mul_le_mul_right _ k1
    omega

theorem div_cross_mono (a1 b1 a2 b2 : Nat) (hb1 : 1 ≤ b1) (hb2 : 1 ≤ b2)
    (h : a1 * b2 ≤ a2 * b1) : a1 / b1 ≤ a2 / b2 := by
  have h1 : a1 / b1 * b1 ≤ a1 := Nat.div_mul_le_self a1 b1
  have h2 : (a1 / b1) * b2 * b1 ≤ a2 * b1 := by
    calc (a1 / b1) * b2 * b1 = (a1 / b1 * b1) * b2 := by ring
      _ ≤ a1 * b2 := Nat.mul_le_mul_right _ h1
      _ ≤ a2 * b1 := h
  have h3 : (a1 / b1) * b2 ≤ a2 := Nat.le_of_mul_le_mul_right h2 (by omega)
  exact (Nat.le_div_iff_mul_le (by omega)).mpr h3

theorem roundF_one (T : Nat) (hT : 1 ≤ T) : roundF T T = (2 ^ 52, 2 ^ 52) := by
  have hd : T / T = 1 := Nat.div_self (by omega)
  have hs : scaleInto T T = (52, 0) := by
    simp [scaleInto, hd]
    rfl
  simp only [roundF, hs]
  have hmod : (T * 2 ^ 52) % T = 0 := Nat.mul_mod_right T (2 ^ 52)
  rw [rne_exact (T * 2 ^ 52) (T * 2 ^ 0) (by omega) (by simp [hmod])]
  have hq : (T * 2 ^ 52) / (T * 2 ^ 0) = 2 ^ 52 := by
    simp [Nat.mul_div_cancel_left _ (show 0 < T by omega)]
  rw [hq]
  norm_num

theorem roundF_hundred : roundF 100 1 = (100 * 2 ^ 46, 2 ^ 46) := by decide

theorem pyProgress_mono (k1 k2 T : Nat) (hk1 : 1 ≤ k1) (hT : 1 ≤ T) (h : k1 ≤ k2) :
    pyProgress k1 T ≤ pyProgress k2 T := by
  have hk2 : 1 ≤ k2 := le_trans hk1 h
  have hx := roundF_mono k1 T k2 T hk1 hT hk2 hT (Nat.mul_le_mul_right T h)
  obtain ⟨hx1p, hx1q⟩ := roundF_pos k1 T hk1 hT
  obtain ⟨hx2p, hx2q⟩ := roundF_pos k2 T hk2 hT
  have hy := roundF_mono (100 * (roundF k1 T).1) (roundF k1 T).2
    (100 * (roundF k2 T).1) (roundF k2 T).2 (by omega) hx1q (by omega) hx2q
    (by calc (100 * (roundF k1 T).1) * (roundF k2 T).2
          = 100 * ((roundF k1 T).1 * (roundF k2 T).2) := by ring
        _ ≤ 100 * ((roundF k2 T).1 * (roundF k1 T).2) := Nat.mul_le_mul_left 100 hx
        _ = (100 * (roundF k2 T).1) * (roundF k1 T).2 := by ring)
  obtain ⟨hy1p, hy1q⟩ := roundF_pos (100 * (roundF k1 T).1) (roundF k1 T).2 (by omega) hx1q
  obtain ⟨hy2p, hy2q⟩ := roundF_pos (100 * (roundF k2 T).1) (roundF k2 T).2 (by omega) hx2q
  simp only [pyProgress]
  exact div_cross_mono _ _ _ _ hy1q hy2q hy

theorem pyProgress_le_100 (k T : Nat) (hk : 1 ≤ k) (hkT : k ≤ T) :
    pyProgress k T ≤ 100 := by
  have hT : 1 ≤ T := le_trans hk hkT
  have hx := roundF_mono k T T T hk hT hT hT (Nat.mul_le_mul_right T hkT)
  rw [roundF_one T hT] at hx
  have h52 : 0 < (2:Nat) ^ 52 := by positivity
  have hxle : (roundF k T).1 ≤ (roundF k T).2 := by
    have hx' : (roundF k T).1 * 2 ^ 52 ≤ (roundF k T).2 * 2 ^ 52 := by
      calc (roundF k T).1 * 2 ^ 52 ≤ 2 ^ 52 * (roundF k T).2 := hx
        _ = (roundF k T).2 * 2 ^ 52 := by ring
    exact Nat.le_of_mul_le_mul_right hx' h52
  obtain ⟨hx1p, hx1q⟩ := roundF_pos k T hk hT
  have hy := roundF_mono (100 * (roundF k T).1) (roundF k T).2 100 1
    (by omega) hx1q (by omega) (by omega)
    (by calc (100 * (roundF k T).1) * 1 = 100 * (roundF k T).1 := by ring
        _ ≤ 100 * (roundF k T).2 := Nat.mul_le_mul_left 100 hxle
        _ = 100 * (roundF k T).2 := rfl)
  rw [roundF_hundred] at hy
  obtain ⟨hy1p, hy1q⟩ := roundF_pos (100 * (roundF k T).1) (roundF k T).2 (by omega) hx1q
  simp only [pyProgress]
  have hdiv := div_cross_mono (roundF (100 * (roundF k T).1) (roundF k T).2).1
    (roundF (100 * (roundF k T).1) (roundF k T).2).2 (100 * 2 ^ 46) (2 ^ 46)
    hy1q (Nat.succ_le_of_lt (by positivity)) hy
  calc (roundF (100 * (roundF k T).1) (roundF k T).2).1 /
        (roundF (100 * (roundF k T).1) (roundF k T).2).2
      ≤ (100 * 2 ^ 46) / 2 ^ 46 := hdiv
    _ = 100 := Nat.mul_div_cancel 100 (by positivity)

set_option maxRecDepth 400000

/-- Bit-exactness evidence for `pyProgress` against CPython's evaluation
of `int((k/T)*100)`: spot values, the three inputs where binary64 differs
from the exact floor at T = 100 (after batches 29, 57 and 58 the program
stores 28, 56 and 57), and full sweeps over T = 7 and T = 100. -/
theorem pyProgress_cpython_samples :
    pyProgress 2 3 = 66 ∧ pyProgress 1 3 = 33 ∧ pyProgress 29 100 = 28 ∧
    pyProgress 57 100 = 56 ∧ pyProgress 58 100 = 57 ∧ pyProgress 30 100 = 30 ∧
    pyProgress 1 2 = 50 ∧ pyProgress 5 7 = 71 ∧ pyProgress 2900 10000 = 28 ∧
    pyProgress 9999 10000 = 99 ∧ pyProgress 123 256 = 48 ∧
    (List.range 7).map (fun k => pyProgress (k + 1) 7) = [14, 28, 42, 57, 71, 85, 100] ∧
    (List.range 100).map (fun k => pyProgress (k + 1) 100) = [1, 2, 3, 4, 5, 6, 7, 8, 9, 10, 11, 12, 13, 14, 15, 16, 17, 18, 19, 20, 21, 22, 23, 24, 25, 26, 27, 28, 28, 30, 31, 32, 33, 34, 35, 36, 37, 38, 39, 40, 41, 42, 43, 44, 45, 46, 47, 48, 49, 50, 51, 52, 53, 54, 55, 56, 56, 57, 59, 60, 61, 62, 63, 64, 65, 66, 67, 68, 69, 70, 71, 72, 73, 74, 75, 76, 77, 78, 79, 80, 81, 82, 83, 84, 85, 86, 87, 88, 89, 90, 91, 92, 93, 94, 95, 96, 97, 98, 99, 100] := by
  decide

/-- Claim C6 counterexample: in a 3-batch run, after batch 2 the persisted
progress is `int((2/3) * 100) = 66`, while the claimed
`round(100 * 2 / 3)` is 67 — the code truncates, it does not round. -/
theorem c6_progress_truncated_not_rounded :
    ((get_task (orchAfterBatches c3Env "t1" 3 0 1 false 7
        { tasks := [c6Task], pokedb := emptyDb } 2).1.tasks "t1").map
      (fun t => t.progress)) = some 66 ∧
    specRound (100 * 2) 3 = 67 := by
  decide

/-- Claim C6 (amended): after each completed batch N of a running task
(1 ≤ N ≤ batches_total, positive batch size — a zero batch size fails the
run before any batch), the persisted progress equals
`int((N / batches_total) * 100)` evaluated in binary64 (`pyProgress`,
bit-exact for the endpoint-validated limits ≤ 10 000) — CPython's
truncation of the float product, not `round(...)` — and processed_items
equals `min(N * batch_size, total_items)` with total_items = limit. -/
theorem c6_progress_after_each_batch (env : Env) (task_id : String)
    (limit offset batch_size : Nat) (force_update : Bool) (now : Nat) (st : OrchState)
    (h : (get_task st.tasks task_id).isSome) (N : Nat) (h1 : 1 ≤ N)
    (_h2 : N ≤ totalBatches limit batch_size) (_h3 : batch_size ≠ 0)
    (_h4 : limit ≤ 10000) :
    ∃ t', get_task (orchAfterBatches env task_id limit offset batch_size
        force_update now st N).1.tasks task_id = some t' ∧
      t'.progress = pyProgress N (totalBatches limit batch_size) ∧
      t'.processed_items = min (N * batch_size) limit := by
  obtain ⟨t', ht, hp, hpr⟩ := orch_progress_char env task_id limit offset batch_size
    force_update now st N h
  have hN : N ≠ 0 := by omega
  exact ⟨t', ht, by rw [hp, if_neg hN], by rw [hpr, if_neg hN]⟩

/-- Witness for C6 (amended): limit 3, batch_size 1, after batch 2 of 3. -/
theorem c6_progress_after_each_batch_witness :
    ((get_task ([c6Task] : TaskStore) "t1").isSome ∧ 1 ≤ 2 ∧ 2 ≤ totalBatches 3 1 ∧
     (1 : Nat) ≠ 0 ∧ (3 : Nat) ≤ 10000) ∧
    (∃ t', get_task (orchAfterBatches c3Env "t1" 3 0 1 false 7
        { tasks := [c6Task], pokedb := emptyDb } 2).1.tasks "t1" = some t' ∧
      t'.progress = pyProgress 2 (totalBatches 3 1) ∧
      t'.processed_items = min (2 * 1) 3) :=
  ⟨⟨by decide, by decide, by decide, by decide, by decide⟩,
   c6_progress_after_each_batch c3Env "t1" 3 0 1 false 7
     { tasks := [c6Task], pokedb := emptyDb } (by decide) 2 (by decide) (by decide)
     (by decide) (by decide)⟩

/-- Claim C7: the persisted progress of a task never decreases across the
run's writes — 0 at creation, 0 at the initial write, then the binary64
progress value after each batch, non-decreasing in the batch number and
never above 100, and finally 100 at the completion write; when the run
fails up front (batch_size 0 raising ZeroDivisionError) the progress
simply stays 0 into the terminal `failed` state. The limit bound is the
admin endpoint's own validation cap. -/
theorem c7_progress_monotone (env : Env) (task_id : String)
    (limit offset batch_size : Nat) (force_update : Bool) (now cnow : Nat)
    (st : OrchState) (db0 : TaskStore) (ty : String) (params : TaskParams)
    (h : (get_task st.tasks task_id).isSome) (_hlim : limit ≤ 10000) :
    ((create_task db0 task_id ty params cnow).1.progress = 0) ∧
    (∀ j k tj tk, j ≤ k → k ≤ totalBatches limit batch_size →
      get_task (orchAfterBatches env task_id limit offset batch_size
        force_update now st j).1.tasks task_id = some tj →
      get_task (orchAfterBatches env task_id limit offset batch_size
        force_update now st k).1.tasks task_id = some tk →
      tj.progress ≤ tk.progress) ∧
    (∀ k tk, k ≤ totalBatches limit batch_size →
      get_task (orchAfterBatches env task_id limit offset batch_size
        force_update now st k).1.tasks task_id = some tk →
      tk.progress ≤ 100) ∧
    (batch_size ≠ 0 →
      ∀ tf, get_task (process_pokemon_load env task_id limit offset batch_size
        force_update now st).tasks task_id = some tf → tf.progress = 100) ∧
    (batch_size = 0 →
      ∀ tf, get_task (process_pokemon_load env task_id limit offset batch_size
        force_update now st).tasks task_id = some tf →
      tf.progress = 0 ∧ tf.status = "failed") := by
  refine ⟨rfl, ?_, ?_, ?_, ?_⟩
  · intro j k tj tk hjk hkT hgj hgk
    obtain ⟨tj', htj', hpj, _⟩ := orch_progress_char env task_id limit offset batch_size
      force_update now st j h
    obtain ⟨tk', htk', hpk, _⟩ := orch_progress_char env task_id limit offset batch_size
      force_update now st k h
    rw [hgj] at htj'
    rw [hgk] at htk'
    rw [← Option.some.inj htj'] at hpj
    rw [← Option.some.inj htk'] at hpk
    by_cases hj0 : j = 0
    · rw [hpj, if_pos hj0]
      exact Nat.zero_le _
    · have hk0 : k ≠ 0 := by omega
      rw [hpj, if_neg hj0, hpk, if_neg hk0]
      exact pyProgress_mono j k (totalBatches limit batch_size) (by omega)
        (by omega) hjk
  · intro k tk hkT hgk
    obtain ⟨tk', htk', hpk, _⟩ := orch_progress_char env task_id limit offset batch_size
      force_update now st k h
    rw [hgk] at htk'
    rw [← Option.some.inj htk'] at hpk
    by_cases hk0 : k = 0
    · rw [hpk, if_pos hk0]
      omega
    · rw [hpk, if_neg hk0]
      exact pyProgress_le_100 k (totalBatches limit batch_size) (by omega) hkT
  · intro hbs tf hgf
    obtain ⟨t, ht⟩ := Option.isSome_iff_exists.mp
      (orch_task_isSome env task_id limit offset batch_size force_update now st
        (totalBatches limit batch_size) h)
    unfold process_pokemon_load at hgf
    rw [if_neg hbs] at hgf
    dsimp only at hgf
    rw [get_task_after_complete _ task_id _ now t ht] at hgf
    rw [← Option.some.inj hgf]
  · intro hbs0 tf hgf
    obtain ⟨t, ht⟩ := Option.isSome_iff_exists.mp h
    have hu := get_task_after_update st.tasks task_id 0 0 limit now t ht
    unfold process_pokemon_load at hgf
    rw [if_pos hbs0] at hgf
    dsimp only at hgf
    rw [get_task_after_fail _ task_id _ now _ hu] at hgf
    rw [← Option.some.inj hgf]
    refine ⟨?_, rfl⟩
    by_cases hs : t.status == "pending" <;> simp [hs]

/-- Witness for C7 at a concrete 3-batch run (exercising both the positive
batch-size completion and the zero batch-size failure conclusions). -/
theorem c7_progress_monotone_witness :
    ((get_task ([c6Task] : TaskStore) "t1").isSome ∧ (3 : Nat) ≤ 10000) ∧
    (((create_task [] "t1" "pokemon_load"
        { limit := 3, offset := 0, batch_size := 1, force_update := false } 0).1.progress = 0) ∧
     (∀ j k tj tk, j ≤ k → k ≤ totalBatches 3 1 →
       get_task (orchAfterBatches c3Env "t1" 3 0 1 false 7
         { tasks := [c6Task], pokedb := emptyDb } j).1.tasks "t1" = some tj →
       get_task (orchAfterBatches c3Env "t1" 3 0 1 false 7
         { tasks := [c6Task], pokedb := emptyDb } k).1.tasks "t1" = some tk →
       tj.progress ≤ tk.progress) ∧
     (∀ k tk, k ≤ totalBatches 3 1 →
       get_task (orchAfterBatches c3Env "t1" 3 0 1 false 7
         { tasks := [c6Task], pokedb := emptyDb } k).1.tasks "t1" = some tk →
       tk.progress ≤ 100) ∧
     ((1 : Nat) ≠ 0 →
       ∀ tf, get_task (process_pokemon_load c3Env "t1" 3 0 1 false 7
         { tasks := [c6Task], pokedb := emptyDb }).tasks "t1" = some tf →
       tf.progress = 100) ∧
     ((1 : Nat) = 0 →
       ∀ tf, get_task (process_pokemon_load c3Env "t1" 3 0 1 false 7
         { tasks := [c6Task], pokedb := emptyDb }).tasks "t1" = some tf →
       tf.progress = 0 ∧ tf.status = "failed")) :=
  ⟨⟨by decide, by decide⟩, c7_progress_monotone c3Env "t1" 3 0 1 false 7 0
    { tasks := [c6Task], pokedb := emptyDb } [] "pokemon_load"
    { limit := 3, offset := 0, batch_size := 1, force_update := false }
    (by decide) (by decide)⟩

/-- Claim C9 counterexample: a completed run's persisted result carries
only the keys total_requested, loaded, errors and completed_at — looking
up the claimed aggregate counts `updated` and `skipped` yields nothing. -/
theorem c9_result_lacks_updated_skipped :
    ((get_task (process_pokemon_load c3Env "t1" 1 0 1 false 7
        { tasks := [c6Task], pokedb := emptyDb }).tasks "t1").map
      (fun t => (t.status, t.result))) =
      some ("completed",
        some [("total_requested", 1), ("loaded", 0), ("errors", 0), ("completed_at", 7)]) ∧
    List.lookup "updated"
      [("total_requested", (1 : Nat)), ("loaded", 0), ("errors", 0), ("completed_at", 7)] = none ∧
    List.lookup "skipped"
      [("total_requested", (1 : Nat)), ("loaded", 0), ("errors", 0), ("completed_at", 7)] = none := by
  decide

/-- Claim C9 (amended): when a run with a positive batch size completes,
the task's persisted result holds exactly the keys total_requested (the
requested limit), loaded and errors (each summed over the per-batch
results) and a completed_at timestamp; the updated and skipped counts are
not aggregated and are absent from the result; progress is 100 and the
status is `completed`. (With batch_size = 0 the batch-count division
raises and the task instead ends `failed` with no result written — see
the C3 and C7 theorems. In the all-success 100-item example the stored
result is total_requested 100, loaded 100, errors 0, with no updated or
skipped key.) -/
theorem c9_completion_result (env : Env) (task_id : String)
    (limit offset batch_size : Nat) (force_update : Bool) (now : Nat) (st : OrchState)
    (h : (get_task st.tasks task_id).isSome) (hbs : batch_size ≠ 0) :
    ∃ t', get_task (process_pokemon_load env task_id limit offset batch_size
        force_update now st).tasks task_id = some t' ∧
      t'.status = "completed" ∧ t'.progress = 100 ∧ t'.completed_at = some now ∧
      t'.result = some [("total_requested", limit),
        ("loaded", ((List.range (totalBatches limit batch_size)).map (fun n =>
          (batchResultAt env task_id limit offset batch_size force_update now st n).loaded)).sum),
        ("errors", ((List.range (totalBatches limit batch_size)).map (fun n =>
          (batchResultAt env task_id limit offset batch_size force_update now st n).errors)).sum),
        ("completed_at", now)] ∧
      (t'.result.getD []).lookup "updated" = none ∧
      (t'.result.getD []).lookup "skipped" = none := by
  obtain ⟨t, ht⟩ := Option.isSome_iff_exists.mp
    (orch_task_isSome env task_id limit offset batch_size force_update now st
      (totalBatches limit batch_size) h)
  have htot := orch_totals env task_id limit offset batch_size force_update now st
    (totalBatches limit batch_size)
  have h1 := congrArg Prod.fst htot
  have h2 := congrArg Prod.snd htot
  dsimp only at h1 h2
  unfold process_pokemon_load
  rw [if_neg hbs]
  dsimp only
  rw [get_task_after_complete _ task_id _ now t ht]
  refine ⟨_, rfl, rfl, rfl, rfl, ?_, ?_, ?_⟩
  · rw [h1, h2]
  · rfl
  · rfl

/-- Witness for C9 (amended) at a concrete single-batch run. -/
theorem c9_completion_result_witness :
    ((get_task ([c6Task] : TaskStore) "t1").isSome ∧ (1 : Nat) ≠ 0) ∧
    (∃ t', get_task (process_pokemon_load c3Env "t1" 1 0 1 false 7
        { tasks := [c6Task], pokedb := emptyDb }).tasks "t1" = some t' ∧
      t'.status = "completed" ∧ t'.progress = 100 ∧ t'.completed_at = some 7 ∧
      t'.result = some [("total_requested", 1),
        ("loaded", ((List.range (totalBatches 1 1)).map (fun n =>
          (batchResultAt c3Env "t1" 1 0 1 false 7
            { tasks := [c6Task], pokedb := emptyDb } n).loaded)).sum),
        ("errors", ((List.range (totalBatches 1 1)).map (fun n =>
          (batchResultAt c3Env "t1" 1 0 1 false 7
            { tasks := [c6Task], pokedb := emptyDb } n).errors)).sum),
        ("completed_at", 7)] ∧
      (t'.result.getD []).lookup "updated" = none ∧
      (t'.result.getD []).lookup "skipped" = none) :=
  ⟨⟨by decide, by decide⟩, c9_completion_result c3Env "t1" 1 0 1 false 7
    { tasks := [c6Task], pokedb := emptyDb } (by decide) (by decide)⟩

/-- Claim C3 (amended): a listing call that cannot reach the source is
caught inside `fetch_data` and surfaces as an empty listing, so the batch
returns the all-zero result (`total_requested = 0`, `errors = 0`) — not an
all-error result; only an exception escaping the loader body (for
instance malformed listing entries) lands in the `except` branch that
counts every requested item as an error. In both cases `load_pokemons`
returns normally, so with a positive batch size the orchestrator proceeds
through every batch and the task still ends `completed` rather than
aborting; with batch_size = 0 the batch-count division itself raises
ZeroDivisionError and the task ends `failed` instead. -/
theorem c3_listing_outcomes (env : Env) (db : Db) (limit offset : Nat) (f : Bool)
    (task_id : String) (bs now : Nat) (st : OrchState) :
    (env.list_page limit offset = Except.ok [] →
      load_pokemons env db limit offset f =
        ({ total_requested := 0, loaded := 0, updated := 0, skipped := 0,
           errors := 0, next_offset := none, details := [] }, db)) ∧
    (∀ e, env.list_page limit offset = Except.error e →
      load_pokemons env db limit offset f =
        ({ total_requested := limit, loaded := 0, updated := 0, skipped := 0,
           errors := limit, next_offset := none, details := [] }, db)) ∧
    ((get_task st.tasks task_id).isSome → bs ≠ 0 →
      ∃ t', get_task (process_pokemon_load env task_id limit offset bs f now st).tasks
          task_id = some t' ∧ t'.status = "completed") ∧
    ((get_task st.tasks task_id).isSome → bs = 0 →
      ∃ t', get_task (process_pokemon_load env task_id limit offset bs f now st).tasks
          task_id = some t' ∧ t'.status = "failed" ∧
        t'.error = some "integer division or modulo by zero") := by
  refine ⟨?_, ?_, ?_, ?_⟩
  · intro hl
    unfold load_pokemons
    rw [hl]
    simp
  · intro e hl
    unfold load_pokemons
    rw [hl]
  · intro h hbs
    obtain ⟨t, ht⟩ := Option.isSome_iff_exists.mp
      (orch_task_isSome env task_id limit offset bs f now st (totalBatches limit bs) h)
    unfold process_pokemon_load
    rw [if_neg hbs]
    dsimp only
    rw [get_task_after_complete _ task_id _ now t ht]
    exact ⟨_, rfl, rfl⟩
  · intro h hbs0
    obtain ⟨t, ht⟩ := Option.isSome_iff_exists.mp h
    have hu := get_task_after_update st.tasks task_id 0 0 limit now t ht
    unfold process_pokemon_load
    rw [if_pos hbs0]
    dsimp only
    rw [get_task_after_fail _ task_id _ now _ hu]
    exact ⟨_, rfl, rfl, rfl⟩

/-- Witness for C3 (amended): the empty-listing case, the
escaping-exception case, a run that completes, and the zero batch-size
run that fails. -/
theorem c3_listing_outcomes_witness :
    (c3Env.list_page 5 0 = Except.ok [] ∧
     load_pokemons c3Env emptyDb 5 0 false =
       ({ total_requested := 0, loaded := 0, updated := 0, skipped := 0,
          errors := 0, next_offset := none, details := [] }, emptyDb)) ∧
    (cErrEnv.list_page 5 0 = Except.error () ∧
     load_pokemons cErrEnv emptyDb 5 0 false =
       ({ total_requested := 5, loaded := 0, updated := 0, skipped := 0,
          errors := 5, next_offset := none, details := [] }, emptyDb)) ∧
    ((get_task ([c6Task] : TaskStore) "t1").isSome ∧ (1 : Nat) ≠ 0 ∧
     ∃ t', get_task (process_pokemon_load c3Env "t1" 5 0 1 false 7
         { tasks := [c6Task], pokedb := emptyDb }).tasks "t1" = some t' ∧
       t'.status = "completed") ∧
    ((get_task ([c6Task] : TaskStore) "t1").isSome ∧ (0 : Nat) = 0 ∧
     ∃ t', get_task (process_pokemon_load c3Env "t1" 5 0 0 false 7
         { tasks := [c6Task], pokedb := emptyDb }).tasks "t1" = some t' ∧
       t'.status = "failed" ∧
       t'.error = some "integer division or modulo by zero") :=
  ⟨⟨rfl, (c3_listing_outcomes c3Env emptyDb 5 0 false "t1" 1 7
      { tasks := [c6Task], pokedb := emptyDb }).1 rfl⟩,
   ⟨rfl, (c3_listing_outcomes cErrEnv emptyDb 5 0 false "t1" 1 7
      { tasks := [c6Task], pokedb := emptyDb }).2.1 () rfl⟩,
   ⟨by decide, by decide, (c3_listing_outcomes c3Env emptyDb 5 0 false "t1" 1 7
      { tasks := [c6Task], pokedb := emptyDb }).2.2.1 (by decide) (by decide)⟩,
   ⟨by decide, rfl, (c3_listing_outcomes c3Env emptyDb 5 0 false "t1" 0 7
      { tasks := [c6Task], pokedb := emptyDb }).2.2.2 (by decide) rfl⟩⟩


mutual

theorem traverse_chain_eq (acc : List Evolution) (c : ChainNode) :
    traverse_chain acc c = acc ++ preorderFlatten c := by
  cases c with
  | empty => simp [traverse_chain, preorderFlatten]
  | node species details children =>
    simp only [traverse_chain, preorderFlatten, traverse_chain_list_eq]
    simp

theorem traverse_chain_list_eq (acc : List Evolution) (cs : List ChainNode) :
    traverse_chain_list acc cs = acc ++ preorderFlattenList cs := by
  cases cs with
  | nil => simp [traverse_chain_list, preorderFlattenList]
  | cons c cs =>
    simp only [traverse_chain_list, preorderFlattenList, traverse_chain_list_eq,
      traverse_chain_eq]
    simp

end

/-- Claim C5: `extract_evolutions` produces the depth-first pre-order
flattening of the chain — each node's entry first, then its subtrees left
to right — consulting only the first evolution_detail of a node; the
linear chain a→b→c yields [a, b, c], the branching chain a→(b, c) yields
[a, b, c] with a first, and a missing payload or missing/empty chain
yields the empty list rather than an error. -/
theorem c5_extract_evolutions_preorder :
    (∀ c : ChainNode, extract_evolutions (some c) = preorderFlatten c) ∧
    extract_evolutions none = [] ∧
    extract_evolutions (some ChainNode.empty) = [] ∧
    extract_evolutions (some chainLinear) =
      [{ name := "a", url := "uA", min_level := none, trigger := none },
       { name := "b", url := "uB", min_level := some 16, trigger := some "level-up" },
       { name := "c", url := "uC", min_level := some 36, trigger := some "level-up" }] ∧
    extract_evolutions (some chainBranch) =
      [{ name := "a", url := "uA", min_level := none, trigger := none },
       { name := "b", url := "uB", min_level := some 16, trigger := some "level-up" },
       { name := "c", url := "uC", min_level := some 36, trigger := some "level-up" }] ∧
    extract_evolutions (some nodeTwoDetails) =
      [{ name := "d", url := "uD", min_level := some 7, trigger := some "level-up" }] := by
  refine ⟨fun c => by rw [extract_evolutions, traverse_chain_eq]; simp, rfl, ?_, ?_, ?_, ?_⟩
  · simp [extract_evolutions, traverse_chain]
  · simp [extract_evolutions, chainLinear, nodeB, nodeC, traverse_chain,
      traverse_chain_list, chainEntry]
  · simp [extract_evolutions, chainBranch, nodeBLeaf, nodeC, traverse_chain,
      traverse_chain_list, chainEntry]
  · simp [extract_evolutions, nodeTwoDetails, traverse_chain, traverse_chain_list, chainEntry]

set_option maxRecDepth 10000

/-- End-to-end all-success example behind C9: importing 100 items in two
batches of 50 with every fetch, transform and insert succeeding ends with
status completed, progress 100 and a result whose stored counts are
total_requested 100, loaded 100, errors 0, with no `updated` key. -/
theorem c9_example_100_items :
    ((get_task (process_pokemon_load env100 "t1" 100 0 50 false 7
        { tasks := [c6Task], pokedb := emptyDb }).tasks "t1").map
      (fun t => (t.status, t.progress,
        (t.result.getD []).lookup "total_requested",
        (t.result.getD []).lookup "loaded",
        (t.result.getD []).lookup "errors",
        (t.result.getD []).lookup "updated"))) =
      some ("completed", 100, some 100, some 100, some 0, none) := by
  rfl
